import Mathlib

/-!
# Console variables of the Chira engine (`engine/config/ConEntry.h`)

A shallow embedding of `chira::ConVar`: construction, `getValue<T>` and
`setValue`, together with the parts of the C++ standard library they call
(`std::to_string`, `std::stoi`, `std::stod`, the arithmetic conversions), and
of the command and variable registries with the settings cache, which the
header only declares and which are modelled from the specification.

Conventions of the embedding:

* a `std::string` is a Lean `String`, one `Char` per C++ `char`; `size()` is
  the number of characters, a 64-bit `std::size_t` (the engine is built for
  64-bit targets), so a text may be longer than `INT_MAX` characters;
* an `int` is an `Int` in the range `INT_MIN .. INT_MAX` (32 bits);
* a `double` is a value of `Double` below (sign, integer significand, binary
  exponent, plus the infinities and NaN);
* an exception leaving a function is an `Except.error`, or the `raised` field
  of the result of `setValue`.
-/

namespace chira

/-! ## Machine integers -/

/-- Smallest value of a C++ `int`. -/
def INT_MIN : Int := -2147483648

/-- Largest value of a C++ `int`. -/
def INT_MAX : Int := 2147483647

/-- The `Int` is the value of some C++ `int`. -/
def isInt32 (n : Int) : Prop := INT_MIN ≤ n ∧ n ≤ INT_MAX

instance (n : Int) : Decidable (isInt32 n) := by
  unfold isInt32; exact inferInstance

/-- Conversion of an integer value to `int` (modular since C++20). -/
def wrapInt32 (n : Int) : Int := (n + 2147483648) % 4294967296 - 2147483648

/-! ## Decimal rendering: `std::to_string` on integers -/

/-- The character of a decimal digit `d < 10`. -/
def digitChar (d : Nat) : Char := Char.ofNat (48 + d)

/-- Digits of `n`, most significant first, pushed in front of `acc`. -/
def natDigits : Nat → Nat → List Char → List Char
  | 0, _, acc => acc
  | fuel + 1, n, acc =>
    if n < 10 then digitChar n :: acc
    else natDigits fuel (n / 10) (digitChar (n % 10) :: acc)

/-- Decimal digits of a natural number (`%u` / `%lu`). -/
def natToChars (n : Nat) : List Char := natDigits (n + 1) n []

/-- Decimal characters of an integer (`%d`). -/
def intToChars (n : Int) : List Char :=
  if n < 0 then '-' :: natToChars n.natAbs else natToChars n.natAbs

/-- The call `std::to_string(int)`. -/
def to_string_int (n : Int) : String := String.mk (intToChars n)

/-- The call `std::to_string(std::size_t)` (an unsigned 64-bit integer). -/
def to_string_size (n : Nat) : String := String.mk (natToChars n)

/-- The call `std::to_string(bool)`: the argument is promoted to `int`. -/
def to_string_bool (b : Bool) : String := to_string_int (if b then 1 else 0)

/-! ## Integer parsing: `std::stoi` -/

/-- Exceptions of the standard conversions. -/
inductive StdError where
  | invalid_argument
  | out_of_range
  deriving DecidableEq, Repr

deriving instance DecidableEq for Except

/-- Classification `isspace` in the "C" locale: the space and the control
characters `\t`, `\n`, `\v`, `\f`, `\r` (codes 9 to 13). -/
def isspace (c : Char) : Bool :=
  c.toNat == 32 || (9 ≤ c.toNat && c.toNat ≤ 13)

/-- Classification `isdigit`. -/
def isdigit (c : Char) : Bool := 48 ≤ c.toNat && c.toNat ≤ 57

/-- Value of a decimal digit character. -/
def digitVal (c : Char) : Nat := c.toNat - 48

/-- Drop leading white space. -/
def skipSpace : List Char → List Char
  | [] => []
  | c :: cs => if isspace c then skipSpace cs else c :: cs

/-- Read an optional sign: whether it was `-`, and the rest. -/
def readSign : List Char → Bool × List Char
  | '-' :: cs => (true, cs)
  | '+' :: cs => (false, cs)
  | cs => (false, cs)

/-- Accumulate the longest run of leading decimal digits. -/
def parseNat : List Char → Nat → Nat × List Char
  | [], acc => (acc, [])
  | c :: cs, acc =>
    if isdigit c then parseNat cs (acc * 10 + digitVal c) else (acc, c :: cs)

/-- The first character exists and is a decimal digit. -/
def startsWithDigit : List Char → Bool
  | [] => false
  | c :: _ => isdigit c

/-- The call `std::stoi(str)` (base 10): `strtol` on the text, then
`invalid_argument` when no digit was converted and `out_of_range` when the
value does not fit an `int`. Characters after the number are ignored. -/
def stoi (str : String) : Except StdError Int :=
  let sgn := readSign (skipSpace str.data)
  if startsWithDigit sgn.2 then
    let v : Int := (parseNat sgn.2 0).1
    let n : Int := if sgn.1 then -v else v
    if INT_MIN ≤ n ∧ n ≤ INT_MAX then Except.ok n else Except.error StdError.out_of_range
  else Except.error StdError.invalid_argument

/-! ## Doubles: `std::to_string(double)`, `std::stod`, conversions -/

/-- A C++ `double` (IEEE 754 binary64): `finite neg m e` is the number
`(-1)^neg * m * 2^e`. The conversions below produce the normal form of the
format: `2^52 ≤ m < 2^53` with `-1074 ≤ e ≤ 971`, or `m < 2^52` with
`e = -1074` (subnormal numbers and zero). A NaN keeps its sign only. -/
inductive Double where
  | finite (neg : Bool) (m : Nat) (e : Int)
  | inf (neg : Bool)
  | nan (neg : Bool)
  deriving DecidableEq, Repr

/-- Number of binary digits of `n`, with fuel. -/
def bitLenAux : Nat → Nat → Nat
  | 0, _ => 0
  | fuel + 1, n => if n = 0 then 0 else bitLenAux fuel (n / 2) + 1

/-- Number of binary digits of `n` (`0` for `0`). -/
def bitLen (n : Nat) : Nat := bitLenAux n n

/-- Quotient `N / D` rounded to the nearest integer, ties to even. -/
def divRoundEven (N D : Nat) : Nat :=
  if 2 * (N % D) > D ∨ (2 * (N % D) = D ∧ (N / D) % 2 = 1) then N / D + 1 else N / D

/-- The fraction `p / (q * 2^e)` as a numerator and a denominator. -/
def scalePow2 (p q : Nat) (e : Int) : Nat × Nat :=
  if 0 ≤ e then (p, q * 2 ^ e.toNat) else (p * 2 ^ (-e).toNat, q)

/-- A correctly rounded double and whether `strtod` would report `ERANGE`. -/
structure Rounded where
  value : Double
  erange : Bool
  deriving DecidableEq, Repr

/-- Round the rational `(-1)^neg * p / q` (`q > 0`) to the nearest double, ties
to even. `erange` is set on overflow (the result is an infinity) and on
underflow: the result is inexact and the value is tiny, tininess being
detected after rounding (the value rounded to 53 bits with an unbounded
exponent is below the least normal number `2^-1022`), as glibc does on
x86-64. -/
def roundToDouble (neg : Bool) (p q : Nat) : Rounded :=
  if p = 0 then ⟨Double.finite neg 0 (-1074), false⟩
  else
    let k : Int := (bitLen p : Int) - (bitLen q : Int)
    let s := scalePow2 p q k
    let lg : Int := if s.2 ≤ s.1 then k else k - 1
    let e : Int := max (lg - 52) (-1074)
    let t := scalePow2 p q e
    let m := divRoundEven t.1 t.2
    let m1 : Nat := if m = 2 ^ 53 then 2 ^ 52 else m
    let e1 : Int := if m = 2 ^ 53 then e + 1 else e
    let u := scalePow2 p q (-1075)
    let tiny : Bool := decide (lg < -1022)
      && !(decide (lg = -1023) && decide (divRoundEven u.1 u.2 = 2 ^ 53))
    if 971 < e1 then ⟨Double.inf neg, true⟩
    else ⟨Double.finite neg m1 e1, decide (t.1 % t.2 ≠ 0) && tiny⟩

/-- Six decimal digits, padded with zeros on the left. -/
def pad6 (n : Nat) : List Char :=
  List.replicate (6 - (natToChars n).length) '0' ++ natToChars n

/-- The call `std::to_string(double)`: the format `%f`, six digits after the
point, the exact value rounded to nearest with ties to even. -/
def to_string_double : Double → String
  | Double.finite neg m e =>
    let t := scalePow2 (m * 1000000) 1 (-e)
    let u := divRoundEven t.1 t.2
    String.mk ((if neg then ['-'] else []) ++ natToChars (u / 1000000)
      ++ '.' :: pad6 (u % 1000000))
  | Double.inf neg => if neg then "-inf" else "inf"
  | Double.nan neg => if neg then "-nan" else "nan"

/-- Conversion `static_cast<double>(int)` (exact). -/
def intToDouble (n : Int) : Double := (roundToDouble (decide (n < 0)) n.natAbs 1).value

/-- Conversion `static_cast<double>(std::size_t)` (rounded above `2^53`). -/
def sizeToDouble (n : Nat) : Double := (roundToDouble false n 1).value

/-- Conversion `static_cast<bool>(double)`: everything but zero is `true`. -/
def doubleToBool : Double → Bool
  | Double.finite _ m _ => decide (m ≠ 0)
  | _ => true

/-- Conversion `static_cast<int>(double)`: truncation towards zero. A value
that does not fit (also an infinity or a NaN) is undefined behaviour in C++;
the model returns `INT_MIN`, which is what the x86-64 conversion gives. -/
def doubleToInt : Double → Int
  | Double.finite neg m e =>
    let a : Nat := if 0 ≤ e then m * 2 ^ e.toNat else m / 2 ^ (-e).toNat
    let v : Int := if neg then -(a : Int) else (a : Int)
    if INT_MIN ≤ v ∧ v ≤ INT_MAX then v else INT_MIN
  | _ => INT_MIN

/-- Lower-case form of an ASCII letter. -/
def toLower (c : Char) : Char :=
  if 65 ≤ c.toNat ∧ c.toNat ≤ 90 then Char.ofNat (c.toNat + 32) else c

/-- The text `s` starts with the lower-case word `w`, letter case ignored. -/
def startsWithCI : List Char → List Char → Bool
  | [], _ => true
  | _ :: _, [] => false
  | a :: w, b :: s => a == toLower b && startsWithCI w s

/-- Value of a decimal digit, if the character is one. -/
def decVal (c : Char) : Option Nat := if isdigit c then some (digitVal c) else none

/-- Value of a hexadecimal digit, if the character is one. -/
def hexVal (c : Char) : Option Nat :=
  if isdigit c then some (digitVal c)
  else if 97 ≤ c.toNat ∧ c.toNat ≤ 102 then some (c.toNat - 87)
  else if 65 ≤ c.toNat ∧ c.toNat ≤ 70 then some (c.toNat - 55)
  else none

/-- Accumulate leading digits in the given base: the value, the number of
digits read and the rest of the text. -/
def readDigits (val : Char → Option Nat) (base : Nat) :
    List Char → Nat → Nat → Nat × Nat × List Char
  | [], acc, cnt => (acc, cnt, [])
  | c :: cs, acc, cnt =>
    match val c with
    | some d => readDigits val base cs (acc * base + d) (cnt + 1)
    | none => (acc, cnt, c :: cs)

/-- A significand `digits [. digits]` with at least one digit: the integer
made of all its digits, the number of digits after the point, the rest. -/
def readMantissa (val : Char → Option Nat) (base : Nat) (s : List Char) :
    Option (Nat × Nat × List Char) :=
  let i := readDigits val base s 0 0
  match i.2.2 with
  | '.' :: r =>
    let f := readDigits val base r i.1 0
    if i.2.1 + f.2.1 = 0 then none else some (f.1, f.2.1, f.2.2)
  | r => if i.2.1 = 0 then none else some (i.1, 0, r)

/-- An optional exponent part introduced by the letter `mark` (lower case):
its value, `0` when the part is absent or has no digit. -/
def readExponent (mark : Char) : List Char → Int
  | [] => 0
  | c :: r =>
    if toLower c == mark then
      let sgn := readSign r
      if startsWithDigit sgn.2 then
        let v : Int := (parseNat sgn.2 0).1
        if sgn.1 then -v else v
      else 0
    else 0

/-- A decimal floating literal as a fraction `p / q`. -/
def parseDecFloat (s : List Char) : Option (Nat × Nat) :=
  match readMantissa decVal 10 s with
  | none => none
  | some (m, nf, r) =>
    let k : Int := readExponent 'e' r - (nf : Int)
    if 0 ≤ k then some (m * 10 ^ k.toNat, 1) else some (m, 10 ^ (-k).toNat)

/-- A hexadecimal floating literal `0x h.hhh [p exponent]` as a fraction. -/
def parseHexFloat : List Char → Option (Nat × Nat)
  | '0' :: x :: s =>
    if toLower x == 'x' then
      match readMantissa hexVal 16 s with
      | none => none
      | some (m, nf, r) => some (scalePow2 m 1 (4 * (nf : Int) - readExponent 'p' r))
    else none
  | _ => none

/-- The call `std::stod(str)`: `strtod` on the text (white space, sign, then
`inf`/`infinity`, `nan`, a hexadecimal or a decimal literal), then
`invalid_argument` when nothing was converted and `out_of_range` when
`strtod` reports `ERANGE`. Characters after the number are ignored. -/
def stod (str : String) : Except StdError Double :=
  let sgn := readSign (skipSpace str.data)
  if startsWithCI ['i', 'n', 'f'] sgn.2 then Except.ok (Double.inf sgn.1)
  else if startsWithCI ['n', 'a', 'n'] sgn.2 then Except.ok (Double.nan sgn.1)
  else
    match (parseHexFloat sgn.2).orElse (fun _ => parseDecFloat sgn.2) with
    | none => Except.error StdError.invalid_argument
    | some (p, q) =>
      let r := roundToDouble sgn.1 p q
      if r.erange then Except.error StdError.out_of_range else Except.ok r.value

/-! ## Flags -/

/-- Flag `CON_FLAG_NONE = 1 << 0`. -/
def CON_FLAG_NONE : Nat := 1

/-- Flag `CON_FLAG_CHEAT = 1 << 1`: cheat-protected. -/
def CON_FLAG_CHEAT : Nat := 2

/-- Flag `CON_FLAG_HIDDEN = 1 << 2`: does not show up in search. -/
def CON_FLAG_HIDDEN : Nat := 4

/-- Flag `CON_FLAG_CACHE = 1 << 3`: value saved at exit, loaded at start. -/
def CON_FLAG_CACHE : Nat := 8

/-- Flag `CON_FLAG_READONLY = 1 << 4`: not changeable in the console. -/
def CON_FLAG_READONLY : Nat := 16

/-! ## The class `ConVar` -/

/-- The enumeration `ConVarType`. -/
inductive ConVarType where
  | BOOLEAN
  | INTEGER
  | DOUBLE
  | STRING
  deriving DecidableEq, Repr

/-- A value of one of the four types of the concept `ConVarValidType`:
`bool`, `int`, `double`, `std::string`. -/
inductive ConVarValue where
  | ofBool (b : Bool)
  | ofInt (n : Int)
  | ofDouble (d : Double)
  | ofString (s : String)
  deriving DecidableEq, Repr

/-- The value is one a C++ caller can pass: an `int` fits 32 bits. -/
def ConVarValue.wellFormed : ConVarValue → Prop
  | ConVarValue.ofInt n => isInt32 n
  | _ => True

instance (x : ConVarValue) : Decidable x.wellFormed := by
  cases x <;> unfold ConVarValue.wellFormed <;> exact inferInstance

/-- What one call of a `std::function<void(CallbackArg)>` does, as far as
`setValue` can tell: it returns, it throws an object whose type derives from
`std::exception` (with its `what()` text), or it throws something else. -/
inductive CallbackResult where
  | returns
  | throwsStdException (what : String)
  | throwsOther
  deriving DecidableEq, Repr

/-- The data members of a `ConVar`, those inherited from `ConCommand`
included. `flags` is the bit pattern of the `int` member. -/
structure ConVar where
  name : String
  description : String
  flags : Nat
  changedCallback : String → CallbackResult
  value : String
  type : ConVarType

/-- Modelled from the spec: the body of `ConCommand::hasFlag` is not in the
sources at hand (only its declaration, line 37); the spec calls `flags` a
bitset, so a flag is held when its bit is set. -/
def ConVar.hasFlag (self : ConVar) (flag : Nat) : Bool := self.flags &&& flag != 0

/-- The data members after the body of the constructor (lines 99-114 and
120-135): the stored string and the type tag follow the static type of
`defaultValue`. Registration (lines 116-117, 137-138) is not part of it. -/
def ConVar.create (name : String) (defaultValue : ConVarValue) (description : String)
    (flags : Nat) (onChanged : String → CallbackResult) : ConVar :=
  match defaultValue with
  | ConVarValue.ofString s =>
    { name := name, description := description, flags := flags,
      changedCallback := onChanged, value := s, type := ConVarType.STRING }
  | ConVarValue.ofBool b =>
    { name := name, description := description, flags := flags,
      changedCallback := onChanged, value := to_string_bool b, type := ConVarType.BOOLEAN }
  | ConVarValue.ofInt n =>
    { name := name, description := description, flags := flags,
      changedCallback := onChanged, value := to_string_int n, type := ConVarType.INTEGER }
  | ConVarValue.ofDouble d =>
    { name := name, description := description, flags := flags,
      changedCallback := onChanged, value := to_string_double d, type := ConVarType.DOUBLE }

/-- The member function `getType`. -/
def ConVar.getType (self : ConVar) : ConVarType := self.type

/-- The instance `getValue<std::string>` (line 148). -/
def ConVar.getValueString (self : ConVar) : String := self.value

/-- The instance `getValue<int>` (lines 150-156). -/
def ConVar.getValueInt (self : ConVar) : Except StdError Int :=
  match self.type with
  | ConVarType.STRING => Except.ok (wrapInt32 self.value.length)
  | ConVarType.DOUBLE => (stod self.value).map doubleToInt
  | _ => stoi self.value

/-- The instance `getValue<bool>` (lines 150-156). -/
def ConVar.getValueBool (self : ConVar) : Except StdError Bool :=
  match self.type with
  | ConVarType.STRING => Except.ok (decide (self.value.length ≠ 0))
  | ConVarType.DOUBLE => (stod self.value).map doubleToBool
  | _ => (stoi self.value).map (fun n => decide (n ≠ 0))

/-- The instance `getValue<double>` (lines 150-156). -/
def ConVar.getValueDouble (self : ConVar) : Except StdError Double :=
  match self.type with
  | ConVarType.STRING => Except.ok (sizeToDouble self.value.length)
  | ConVarType.DOUBLE => stod self.value
  | _ => (stoi self.value).map intToDouble

/-- An exception that leaves `setValue`. -/
inductive Raised where
  | conversion (e : StdError)
  | fromCallback
  deriving DecidableEq, Repr

/-- Everything a call of `setValue` does: the object afterwards, the
arguments of the calls of `changedCallback` in order, the lines written to
the error log, and the exception that leaves the call, if any. -/
structure SetValueResult where
  convar : ConVar
  callbackArgs : List String
  log : List String
  raised : Option Raised

/-- The string that lines 166-206 of `setValue` assign to `value`, or the
exception of `std::stoi` / `std::stod` that the handlers for
`std::invalid_argument` do not catch. -/
def ConVar.encode (type : ConVarType) (newValue : ConVarValue) : Except StdError String :=
  match newValue with
  | ConVarValue.ofString s =>
    match type with
    | ConVarType.BOOLEAN | ConVarType.INTEGER =>
      match stoi s with
      | Except.ok n => Except.ok (to_string_int n)
      | Except.error StdError.invalid_argument => Except.ok (to_string_size s.length)
      | Except.error e => Except.error e
    | ConVarType.DOUBLE =>
      match stod s with
      | Except.ok d => Except.ok (to_string_double d)
      | Except.error StdError.invalid_argument =>
        Except.ok (to_string_double (sizeToDouble s.length))
      | Except.error e => Except.error e
    | ConVarType.STRING => Except.ok s
  | ConVarValue.ofBool b =>
    match type with
    | ConVarType.BOOLEAN => Except.ok (to_string_bool b)
    | ConVarType.INTEGER => Except.ok (to_string_int (if b then 1 else 0))
    | ConVarType.DOUBLE => Except.ok (to_string_double (intToDouble (if b then 1 else 0)))
    | ConVarType.STRING => Except.ok (to_string_bool b)
  | ConVarValue.ofInt n =>
    match type with
    | ConVarType.BOOLEAN => Except.ok (to_string_bool (decide (n ≠ 0)))
    | ConVarType.INTEGER => Except.ok (to_string_int n)
    | ConVarType.DOUBLE => Except.ok (to_string_double (intToDouble n))
    | ConVarType.STRING => Except.ok (to_string_int n)
  | ConVarValue.ofDouble d =>
    match type with
    | ConVarType.BOOLEAN => Except.ok (to_string_bool (doubleToBool d))
    | ConVarType.INTEGER => Except.ok (to_string_int (doubleToInt d))
    | ConVarType.DOUBLE => Except.ok (to_string_double d)
    | ConVarType.STRING => Except.ok (to_string_double d)

/-- The member function `setValue(newValue, runCallback)` (lines 160-215).
`cheatsEnabled` is the result of the call `ConVar::areCheatsEnabled()`. -/
def ConVar.setValue (cheatsEnabled : Bool) (self : ConVar) (newValue : ConVarValue)
    (runCallback : Bool) : SetValueResult :=
  if self.hasFlag CON_FLAG_CHEAT && !cheatsEnabled then
    { convar := self, callbackArgs := [],
      log := ["Cannot set value of cheat-protected convar with cheats disabled."],
      raised := none }
  else
    match ConVar.encode self.type newValue with
    | Except.error e =>
      { convar := self, callbackArgs := [], log := [], raised := some (Raised.conversion e) }
    | Except.ok v =>
      let self1 : ConVar := { self with value := v }
      if runCallback then
        match self1.changedCallback self1.value with
        | CallbackResult.returns =>
          { convar := self1, callbackArgs := [self1.value], log := [], raised := none }
        | CallbackResult.throwsStdException what =>
          { convar := self1, callbackArgs := [self1.value],
            log := ["Encountered error executing convar callback: " ++ what], raised := none }
        | CallbackResult.throwsOther =>
          { convar := self1, callbackArgs := [self1.value], log := [],
            raised := some Raised.fromCallback }
      else
        { convar := self1, callbackArgs := [], log := [], raised := none }

/-- The write is permitted: the guard of lines 161-164 does not reject it. -/
def ConVar.writePermitted (cheatsEnabled : Bool) (self : ConVar) : Prop :=
  self.hasFlag CON_FLAG_CHEAT = false ∨ cheatsEnabled = true

instance (c : Bool) (self : ConVar) : Decidable (self.writePermitted c) := by
  unfold ConVar.writePermitted; exact inferInstance

/-- The value is a binary64 number in the normal form of the format. -/
def Double.isBinary64 : Double → Prop
  | Double.finite _ m e =>
    (2 ^ 52 ≤ m ∧ m < 2 ^ 53 ∧ -1074 ≤ e ∧ e ≤ 971) ∨ (m < 2 ^ 52 ∧ e = -1074)
  | _ => True

instance (d : Double) : Decidable d.isBinary64 := by
  cases d <;> unfold Double.isBinary64 <;> exact inferInstance

/-- One call of `setValue` in the life of a variable: the answer of
`areCheatsEnabled()` at that moment and the two arguments. -/
structure SetValueCall where
  cheatsEnabled : Bool
  newValue : ConVarValue
  runCallback : Bool

/-- The object after a sequence of calls of `setValue`, each applied to the
object the previous one left (also when that call threw). -/
def ConVar.afterCalls (self : ConVar) : List SetValueCall → ConVar
  | [] => self
  | c :: cs =>
    ConVar.afterCalls (self.setValue c.cheatsEnabled c.newValue c.runCallback).convar cs

/-- A callback that does nothing: the default argument `[](CallbackArg) {}`. -/
def noCallback : String → CallbackResult := fun _ => CallbackResult.returns

/-- A text of `2^31` characters that does not start a number. -/
def longText : String := String.mk (List.replicate 2147483648 'a')

/-- A cheat-protected integer variable with default `10`, as in the scenario
`ConVar v{"x", 10, CON_FLAG_CHEAT}`. -/
def cheatVar : ConVar :=
  ConVar.create "x" (ConVarValue.ofInt 10) "" CON_FLAG_CHEAT noCallback

/-- A BOOLEAN variable with default `false` and no flag. -/
def boolVar : ConVar :=
  ConVar.create "b" (ConVarValue.ofBool false) "" CON_FLAG_NONE noCallback

/-- An INTEGER variable with default `10` and no flag. -/
def intVar : ConVar :=
  ConVar.create "i" (ConVarValue.ofInt 10) "" CON_FLAG_NONE noCallback

/-- A STRING variable with default "abc" and no flag. -/
def stringVar : ConVar :=
  ConVar.create "s" (ConVarValue.ofString "abc") "" CON_FLAG_NONE noCallback

/-- A DOUBLE variable with default `1.5` and no flag. -/
def doubleVar : ConVar :=
  ConVar.create "d" (ConVarValue.ofDouble (Double.finite false 6755399441055744 (-52))) ""
    CON_FLAG_NONE noCallback

/-- The double `2^-30` (about `9.3e-10`), in normal form. -/
def tinyDouble : Double := Double.finite false 4503599627370496 (-82)

/-- The string is the decimal rendering of some `int`. -/
def isIntString (s : String) : Prop := ∃ n : Int, isInt32 n ∧ s = to_string_int n

/-- A text input has fewer than `2^31` characters (its length fits an `int`);
other inputs are not restricted. -/
def ConVarValue.shortText : ConVarValue → Prop
  | ConVarValue.ofString s => s.length ≤ 2147483647
  | _ => True

instance (x : ConVarValue) : Decidable x.shortText := by
  cases x <;> unfold ConVarValue.shortText <;> exact inferInstance

/-- An INTEGER variable whose callback throws an object that does not derive
from `std::exception` (such as `throw 42;`). -/
def throwOtherVar : ConVar :=
  ConVar.create "t" (ConVarValue.ofInt 10) "" CON_FLAG_NONE (fun _ => CallbackResult.throwsOther)

/-- An INTEGER variable whose callback throws a `std::runtime_error`. -/
def throwStdVar : ConVar :=
  ConVar.create "t" (ConVarValue.ofInt 10) "" CON_FLAG_NONE
    (fun _ => CallbackResult.throwsStdException "boom")

/-- A run of calls on a cheat-protected variable: a rejected write, a text
that is no number, a text too large for an `int` (the call throws), a double. -/
def sampleCalls : List SetValueCall :=
  [SetValueCall.mk false (ConVarValue.ofString "77") true,
   SetValueCall.mk true (ConVarValue.ofString "abc") true,
   SetValueCall.mk true (ConVarValue.ofString "99999999999") true,
   SetValueCall.mk true (ConVarValue.ofDouble (Double.finite false 6755399441055744 (-52))) false]

/-- A STRING variable that holds the text of `2^31` letters. -/
def longStringVar : ConVar :=
  ConVar.create "s" (ConVarValue.ofString longText) "" CON_FLAG_NONE noCallback

/-- A STRING variable whose text "42" is itself a decimal number. -/
def numeralStringVar : ConVar :=
  ConVar.create "s" (ConVarValue.ofString "42") "" CON_FLAG_NONE noCallback

/-! ## Commands, the two registries and the settings cache

`ConEntry.h` declares the registry functions (lines 51-78); their bodies, the
constructors of `ConCommand` and the settings loader live in files that are
not at hand, so this part follows the specification. A reference
(`ConCommand*`, `ConVar*`) is the address of the object, a natural number;
a registry keeps each reference next to the object it points to. -/

/-- The data members of a `ConCommand` (lines 43-46). -/
structure ConCommand where
  name : String
  description : String
  flags : Nat
  callback : List String → CallbackResult

/-- Modelled from the spec: the body of `ConCommand::hasFlag` is missing
(declared at line 37); `flags` is a bitset, a flag is held when its bit is
set. -/
def ConCommand.hasFlag (self : ConCommand) (flag : Nat) : Bool := self.flags &&& flag != 0

/-- The `ConCommand` part of a `ConVar`: the constructor hands the base class
the name, the description, the flags and an empty callback (lines 100, 121). -/
def ConVar.toConCommand (self : ConVar) : ConCommand :=
  { name := self.name, description := self.description, flags := self.flags,
    callback := fun _ => CallbackResult.returns }

/-- Modelled from the spec: the process-wide state behind `ConCommandRegistry`
and `ConVarRegistry`, whose function bodies are missing: the two name indexes
(section 3, "two process-wide mappings: name → raw reference"), in
registration order, and the settings cache `(category, key) → value` that
the variable registry owns (section 4.2). -/
structure Registries where
  concommands : List (Nat × ConCommand)
  convars : List (Nat × ConVar)
  cache : List ((String × String) × ConVarValue)

/-- Modelled from the spec: `ConCommandRegistry::hasConCommand` (body
missing): whether a registered command has this name. -/
def ConCommandRegistry.hasConCommand (r : Registries) (name : String) : Bool :=
  r.concommands.any (fun e => e.2.name == name)

/-- Modelled from the spec: `ConVarRegistry::hasConVar` (body missing):
whether a registered variable has this name. -/
def ConVarRegistry.hasConVar (r : Registries) (name : String) : Bool :=
  r.convars.any (fun e => e.2.name == name)

/-- Modelled from the spec: `ConCommandRegistry::getConCommand` (body
missing), the `lookup(name) -> optional<Command*>` of section 4.1: the
reference registered under the name, if any. -/
def ConCommandRegistry.getConCommand (r : Registries) (name : String) : Option Nat :=
  (r.concommands.find? (fun e => e.2.name == name)).map Prod.fst

/-- Modelled from the spec: `ConVarRegistry::getConVar` (body missing), the
lookup of section 4.2: the reference registered under the name, if any. -/
def ConVarRegistry.getConVar (r : Registries) (name : String) : Option Nat :=
  (r.convars.find? (fun e => e.2.name == name)).map Prod.fst

/-- Modelled from the spec: `ConCommandRegistry::getConCommandList` (body
missing), the `list()` of section 4.1: the names in registration order;
"filtering happens at the presentation boundary, not inside the registry". -/
def ConCommandRegistry.getConCommandList (r : Registries) : List String :=
  r.concommands.map (fun e => e.2.name)

/-- Modelled from the spec: `ConVarRegistry::getConVarList` (body missing),
of "identical shape" (section 4.2): the names in registration order. -/
def ConVarRegistry.getConVarList (r : Registries) : List String :=
  r.convars.map (fun e => e.2.name)

/-- Modelled from the spec: `ConCommandRegistry::registerConCommand` (body
missing), section 4.1: "inserts if name not already present in either
registry's namespace; returns success/failure". `p` is the reference. -/
def ConCommandRegistry.registerConCommand (r : Registries) (p : Nat) (concommand : ConCommand) :
    Bool × Registries :=
  if ConCommandRegistry.hasConCommand r concommand.name
      || ConVarRegistry.hasConVar r concommand.name then (false, r)
  else (true, { r with concommands := r.concommands ++ [(p, concommand)] })

/-- Modelled from the spec: `ConCommandRegistry::deregisterConCommand` (body
missing), section 4.1: "removes by identity (pointer/reference), safe if
absent". -/
def ConCommandRegistry.deregisterConCommand (r : Registries) (p : Nat) : Registries :=
  { r with concommands := r.concommands.filter (fun e => e.1 != p) }

/-- Modelled from the spec: the read of the settings cache,
`getValue(category, key, &out) -> bool` of section 6 (the loader is missing). -/
def Registries.cacheGet (r : Registries) (category key : String) : Option ConVarValue :=
  (r.cache.find? (fun e => e.1 == (category, key))).map Prod.snd

/-- Modelled from the spec: what registration does to a variable with the
CACHE flag (section 4.2): "attempt to load (category, name) from cache and
overwrite the default value", in the single category "convars"; the cached
scalar is stored in the string form of the variable's type, as `setValue`
encodes it, and a missing key (or a scalar that cannot be encoded) keeps the
default. -/
def ConVarRegistry.loadCached (r : Registries) (convar : ConVar) : ConVar :=
  if convar.hasFlag CON_FLAG_CACHE then
    match r.cacheGet "convars" convar.name with
    | some v =>
      match ConVar.encode convar.type v with
      | Except.ok s => { convar with value := s }
      | Except.error _ => convar
    | none => convar
  else convar

/-- The outcome of `registerConVar`: the returned flag, the state of the
registries and the variable as the call leaves it. -/
structure RegisterConVarResult where
  ok : Bool
  registries : Registries
  convar : ConVar

/-- Modelled from the spec: `ConVarRegistry::registerConVar` (body missing),
section 4.2: of the same shape as `registerConCommand`, and a CACHE variable
that is registered takes its value from the settings cache. -/
def ConVarRegistry.registerConVar (r : Registries) (p : Nat) (convar : ConVar) :
    RegisterConVarResult :=
  if ConCommandRegistry.hasConCommand r convar.name
      || ConVarRegistry.hasConVar r convar.name then
    { ok := false, registries := r, convar := convar }
  else
    { ok := true,
      registries :=
        { r with convars := r.convars ++ [(p, ConVarRegistry.loadCached r convar)] },
      convar := ConVarRegistry.loadCached r convar }

/-- The outcome of a constructor of `ConVar`: the registries and the new
object. -/
structure Constructed where
  registries : Registries
  convar : ConVar

/-- The constructors of `ConVar` (lines 99-118 and 120-139) for the object at
address `p`: the base class constructor registers the object as a command
(specification, section 3), the body sets `value` and `type`, undoes the
registration as a command (line 116) and registers the variable (line 117;
`runtime_assert` only reports a failure). -/
def ConVar.construct (r : Registries) (p : Nat) (name : String) (defaultValue : ConVarValue)
    (description : String) (flags : Nat) (onChanged : String → CallbackResult) : Constructed :=
  let self := ConVar.create name defaultValue description flags onChanged
  let r1 := (ConCommandRegistry.registerConCommand r p self.toConCommand).2
  let r2 := ConCommandRegistry.deregisterConCommand r1 p
  let res := ConVarRegistry.registerConVar r2 p self
  { registries := res.registries, convar := res.convar }

/-- Nothing registered and an empty settings cache. -/
def Registries.empty : Registries := { concommands := [], convars := [], cache := [] }

/-- A settings cache that holds the integer 7 for the variable "x". -/
def cachedSeven : Registries :=
  { concommands := [], convars := [], cache := [(("convars", "x"), ConVarValue.ofInt 7)] }

/-- A command "help" without the HIDDEN flag. -/
def helpCommand : ConCommand :=
  { name := "help", description := "first", flags := CON_FLAG_NONE,
    callback := fun _ => CallbackResult.returns }

/-- Another command object that is also named "help". -/
def otherHelpCommand : ConCommand :=
  { name := "help", description := "second", flags := CON_FLAG_NONE,
    callback := fun _ => CallbackResult.returns }

/-- Registration loads nothing over the default of a variable with this name
and these flags: the CACHE bit is not set, or the settings cache has no entry
under the name. -/
def Registries.nothingCached (r : Registries) (name : String) (flags : Nat) : Prop :=
  (flags &&& CON_FLAG_CACHE != 0) = false ∨ r.cacheGet "convars" name = none

instance (r : Registries) (name : String) (flags : Nat) :
    Decidable (r.nothingCached name flags) := by
  unfold Registries.nothingCached; exact inferInstance

/-- A string that a BOOLEAN or INTEGER variable can come to hold: the
rendering of an `int`, or the rendering of a text length above `INT_MAX`
(left by the length fallback of line 174). -/
def isStoredIntegral (s : String) : Prop :=
  isIntString s ∨ ∃ k : Nat, 2147483647 < k ∧ s = to_string_size k

/-- The stored string of a BOOLEAN or INTEGER variable is one that writes can
leave there; nothing is asked of the other types. -/
def ConVar.storedForm (self : ConVar) : Prop :=
  (self.type = ConVarType.BOOLEAN ∨ self.type = ConVarType.INTEGER) →
    isStoredIntegral self.value

/-- An INTEGER variable with default `20` and no flag. -/
def otherIntVar : ConVar :=
  ConVar.create "j" (ConVarValue.ofInt 20) "" CON_FLAG_NONE noCallback

/-- Modelled from the spec: the name of the one designated cheats variable,
the "sv_cheats" of section 4.2. -/
def CHEATS_CONVAR : String := "sv_cheats"

/-- Modelled from the spec: `ConVar::areCheatsEnabled` (declared at line 221,
body missing), section 4.2: "reads one designated boolean Variable by
convention; if that Variable is absent, cheats are considered disabled". The
value read is `getValue<bool>()` of the variable registered under the name. -/
def ConVar.areCheatsEnabled (r : Registries) : Except StdError Bool :=
  match r.convars.find? (fun e => e.2.name == CHEATS_CONVAR) with
  | some e => e.2.getValueBool
  | none => Except.ok false

/-- The member function `setValue` called while the registries are in the
state `r`: the guard of line 161 asks `areCheatsEnabled()` only when the
variable has the CHEAT flag (`&&` evaluates its right side only then), and an
exception of that call leaves `setValue`. -/
def ConVar.setValueIn (r : Registries) (self : ConVar) (newValue : ConVarValue)
    (runCallback : Bool) : SetValueResult :=
  if self.hasFlag CON_FLAG_CHEAT then
    match ConVar.areCheatsEnabled r with
    | Except.ok c => self.setValue c newValue runCallback
    | Except.error e =>
      { convar := self, callbackArgs := [], log := [], raised := some (Raised.conversion e) }
  else self.setValue false newValue runCallback

/-- The registries after the cheats variable was constructed at address 1
with the default `true`. -/
def cheatsOnRegistries : Registries :=
  (ConVar.construct Registries.empty 1 CHEATS_CONVAR (ConVarValue.ofBool true) "" CON_FLAG_NONE
    noCallback).registries

/-- A short run of calls on a BOOLEAN variable: the text "42", then `false`,
then the text "007". -/
def boolCalls : List SetValueCall :=
  [SetValueCall.mk false (ConVarValue.ofString "42") true,
   SetValueCall.mk false (ConVarValue.ofBool false) true,
   SetValueCall.mk false (ConVarValue.ofString "007") false]

end chira

/-! ## Rendering an integer and parsing it back -/

namespace chira

theorem digitChar_toNat (d : Nat) (h : d < 10) : (digitChar d).toNat = 48 + d := by
  interval_cases d <;> decide

theorem isdigit_digitChar (d : Nat) (h : d < 10) : isdigit (digitChar d) = true := by
  interval_cases d <;> decide

theorem digitVal_digitChar (d : Nat) (h : d < 10) : digitVal (digitChar d) = d := by
  interval_cases d <;> decide

theorem isspace_of_isdigit (c : Char) (h : isdigit c = true) : isspace c = false := by
  simp only [isdigit, Bool.and_eq_true, decide_eq_true_eq] at h
  simp only [isspace, Bool.or_eq_false_iff, Bool.and_eq_false_iff, beq_eq_false_iff_ne,
    decide_eq_false_iff_not]
  omega

theorem skipSpace_of_startsWithDigit (l : List Char) (h : startsWithDigit l = true) :
    skipSpace l = l := by
  cases l with
  | nil => rfl
  | cons c cs =>
    simp only [startsWithDigit] at h
    simp [skipSpace, isspace_of_isdigit c h]

theorem readSign_of_startsWithDigit (l : List Char) (h : startsWithDigit l = true) :
    readSign l = (false, l) := by
  cases l with
  | nil => rfl
  | cons c cs =>
    simp only [startsWithDigit] at h
    unfold readSign
    split
    · rename_i heq
      injection heq with h1 h2
      subst h1
      exact absurd h (by decide)
    · rename_i heq
      injection heq with h1 h2
      subst h1
      exact absurd h (by decide)
    · rfl

theorem startsWithDigit_natDigits (fuel n : Nat) (rest : List Char) (h : n < fuel) :
    startsWithDigit (natDigits fuel n rest) = true := by
  induction fuel generalizing n rest with
  | zero => omega
  | succ f ih =>
    unfold natDigits
    split
    · rename_i h10
      exact isdigit_digitChar n h10
    · exact ih _ _ (by omega)

theorem parseNat_natDigits (fuel n : Nat) (rest : List Char) (h : n < fuel) :
    parseNat (natDigits fuel n rest) 0 = parseNat rest n := by
  induction fuel generalizing n rest with
  | zero => omega
  | succ f ih =>
    unfold natDigits
    split
    · rename_i h10
      rw [parseNat, if_pos (isdigit_digitChar n h10), digitVal_digitChar n h10]
      simp
    · rename_i h10
      have hm : n % 10 < 10 := Nat.mod_lt _ (by decide)
      rw [ih _ _ (by omega), parseNat, if_pos (isdigit_digitChar _ hm),
        digitVal_digitChar _ hm]
      congr 1
      omega

theorem natDigits_append (fuel n : Nat) (rest : List Char) :
    natDigits fuel n rest = natDigits fuel n [] ++ rest := by
  induction fuel generalizing n rest with
  | zero => rfl
  | succ f ih =>
    unfold natDigits
    split
    · rfl
    · rw [ih _ (digitChar (n % 10) :: rest), ih _ [digitChar (n % 10)]]
      simp

theorem parseNat_of_not_digit (t : List Char) (a : Nat) (h : startsWithDigit t = false) :
    (parseNat t a).1 = a := by
  cases t with
  | nil => rfl
  | cons c cs =>
    simp only [startsWithDigit] at h
    simp [parseNat, h]

/-- Parsing the decimal digits of `n`, followed by anything that does not
start with a digit, gives `n`. -/
theorem parseNat_natToChars (n : Nat) (t : List Char) (h : startsWithDigit t = false) :
    (parseNat (natToChars n ++ t) 0).1 = n := by
  unfold natToChars
  rw [← natDigits_append, parseNat_natDigits _ _ _ (Nat.lt_succ_self n)]
  exact parseNat_of_not_digit t n h

theorem startsWithDigit_natToChars (n : Nat) (t : List Char) :
    startsWithDigit (natToChars n ++ t) = true := by
  unfold natToChars
  rw [← natDigits_append]
  exact startsWithDigit_natDigits _ _ _ (Nat.lt_succ_self n)

/-- Reading back with `std::stoi` what `std::to_string` rendered of an `int`,
whatever non-digit text follows it. -/
theorem stoi_intToChars_append (n : Int) (hn : isInt32 n) (t : List Char)
    (ht : startsWithDigit t = false) :
    stoi (String.mk (intToChars n ++ t)) = Except.ok n := by
  unfold stoi intToChars
  by_cases hneg : n < 0
  · simp only [hneg, if_true, List.cons_append]
    have hs : skipSpace ('-' :: (natToChars n.natAbs ++ t)) = '-' :: (natToChars n.natAbs ++ t) := by
      simp [skipSpace, isspace]
    simp only [hs, readSign, startsWithDigit_natToChars, if_true,
      parseNat_natToChars _ _ ht]
    have : -((n.natAbs : Nat) : Int) = n := by omega
    rw [this]
    exact if_pos hn
  · simp only [hneg, if_false]
    have hd := startsWithDigit_natToChars n.natAbs t
    simp only [skipSpace_of_startsWithDigit _ hd, readSign_of_startsWithDigit _ hd, hd, if_true,
      parseNat_natToChars _ _ ht]
    have : ((n.natAbs : Nat) : Int) = n := by omega
    simp only [Bool.false_eq_true, if_false, this]
    exact if_pos hn

/-- Round trip `std::stoi(std::to_string(n)) == n` on the whole `int` range. -/
theorem stoi_to_string_int (n : Int) (hn : isInt32 n) :
    stoi (to_string_int n) = Except.ok n := by
  have := stoi_intToChars_append n hn [] rfl
  simpa [to_string_int] using this

end chira

/-! ## Facts about `setValue` shared by the claims -/

namespace chira

theorem setValue_rejected (self : ConVar) (newValue : ConVarValue) (runCallback : Bool)
    (h : self.hasFlag CON_FLAG_CHEAT = true) :
    self.setValue false newValue runCallback =
      { convar := self, callbackArgs := [],
        log := ["Cannot set value of cheat-protected convar with cheats disabled."],
        raised := none } := by
  simp [ConVar.setValue, h]

theorem guard_of_writePermitted (cheatsEnabled : Bool) (self : ConVar)
    (hp : self.writePermitted cheatsEnabled) :
    (self.hasFlag CON_FLAG_CHEAT && !cheatsEnabled) = false := by
  unfold ConVar.writePermitted at hp
  rcases hp with h | h <;> simp [h]

/-- On a permitted write whose encoding succeeds, the encoded string is
stored, whatever the callback does. -/
theorem setValue_value_of_encode (cheatsEnabled : Bool) (self : ConVar)
    (newValue : ConVarValue) (runCallback : Bool) (v : String)
    (hp : self.writePermitted cheatsEnabled)
    (he : ConVar.encode self.type newValue = Except.ok v) :
    (self.setValue cheatsEnabled newValue runCallback).convar = { self with value := v } := by
  unfold ConVar.setValue
  rw [guard_of_writePermitted cheatsEnabled self hp]
  simp only [Bool.false_eq_true, if_false, he]
  cases runCallback
  · rfl
  · simp only [if_true]
    cases self.changedCallback v <;> rfl

/-- On a permitted write whose encoding succeeds and with `runCallback` set,
the callback is called once, with the stored string. -/
theorem setValue_callback_of_encode (cheatsEnabled : Bool) (self : ConVar)
    (newValue : ConVarValue) (v : String)
    (hp : self.writePermitted cheatsEnabled)
    (he : ConVar.encode self.type newValue = Except.ok v) :
    (self.setValue cheatsEnabled newValue true).callbackArgs = [v] := by
  unfold ConVar.setValue
  rw [guard_of_writePermitted cheatsEnabled self hp]
  simp only [Bool.false_eq_true, if_false, he, if_true]
  cases self.changedCallback v <;> rfl

/-- The object after `setValue` differs from the one before in `value` at most. -/
theorem setValue_convar_eq (cheatsEnabled : Bool) (self : ConVar) (newValue : ConVarValue)
    (runCallback : Bool) :
    (self.setValue cheatsEnabled newValue runCallback).convar =
      { self with value := (self.setValue cheatsEnabled newValue runCallback).convar.value } := by
  unfold ConVar.setValue
  split
  · rfl
  · split
    · rfl
    · rename_i v hv
      cases runCallback
      · rfl
      · simp only [if_true]
        cases self.changedCallback v <;> rfl

end chira

/-! ## The claims -/

namespace chira

theorem encode_text_integral_ok (type : ConVarType) (s : String) (n : Int)
    (ht : type = ConVarType.BOOLEAN ∨ type = ConVarType.INTEGER)
    (hs : stoi s = Except.ok n) :
    ConVar.encode type (ConVarValue.ofString s) = Except.ok (to_string_int n) := by
  rcases ht with h | h <;> subst h <;> simp [ConVar.encode, hs]

theorem encode_text_integral_invalid (type : ConVarType) (s : String)
    (ht : type = ConVarType.BOOLEAN ∨ type = ConVarType.INTEGER)
    (hs : stoi s = Except.error StdError.invalid_argument) :
    ConVar.encode type (ConVarValue.ofString s) = Except.ok (to_string_size s.length) := by
  rcases ht with h | h <;> subst h <;> simp [ConVar.encode, hs]

theorem encode_text_integral_range (type : ConVarType) (s : String)
    (ht : type = ConVarType.BOOLEAN ∨ type = ConVarType.INTEGER)
    (hs : stoi s = Except.error StdError.out_of_range) :
    ConVar.encode type (ConVarValue.ofString s) = Except.error StdError.out_of_range := by
  rcases ht with h | h <;> subst h <;> simp [ConVar.encode, hs]

theorem getValueInt_integral (self : ConVar)
    (ht : self.type = ConVarType.BOOLEAN ∨ self.type = ConVarType.INTEGER) :
    self.getValueInt = stoi self.value := by
  rcases ht with h | h <;> simp [ConVar.getValueInt, h]

/-- C1: on a variable that has the CHEAT flag, while the cheats check answers
false, `setValue` leaves the whole object (stored string and type included)
as it was, calls the changed callback not at all and throws nothing, for
every input and either value of `runCallback`. -/
theorem setValue_cheat_disabled_unchanged (self : ConVar) (newValue : ConVarValue)
    (runCallback : Bool) (h : self.hasFlag CON_FLAG_CHEAT = true) :
    (self.setValue false newValue runCallback).convar = self ∧
    (self.setValue false newValue runCallback).convar.value = self.value ∧
    (self.setValue false newValue runCallback).convar.getType = self.getType ∧
    (self.setValue false newValue runCallback).callbackArgs = [] ∧
    (self.setValue false newValue runCallback).raised = none := by
  rw [setValue_rejected self newValue runCallback h]
  exact ⟨rfl, rfl, rfl, rfl, rfl⟩

/-- C1, the scenario of the spec: default 10, cheats disabled, `setValue(99)`,
and `getValue<int>()` still returns 10. -/
theorem setValue_cheat_disabled_unchanged_witness :
    cheatVar.hasFlag CON_FLAG_CHEAT = true ∧
    (cheatVar.setValue false (ConVarValue.ofInt 99) true).convar.getValueInt = Except.ok 10 ∧
    (cheatVar.setValue false (ConVarValue.ofInt 99) true).callbackArgs = [] := by
  have h := setValue_cheat_disabled_unchanged cheatVar (ConVarValue.ofInt 99) true (by decide)
  refine ⟨by decide, ?_, h.2.2.2.1⟩
  rw [h.1]
  decide

/-- C3: on a BOOLEAN or INTEGER variable with the write permitted, `setValue`
of the decimal rendering of a 32-bit integer `n` stores exactly that
rendering (no coercion to "0"/"1" on a BOOLEAN variable), and `getValue<int>()`
then returns `n`. -/
theorem setValue_decimal_text_stores_it (cheatsEnabled : Bool) (self : ConVar) (n : Int)
    (runCallback : Bool)
    (ht : self.type = ConVarType.BOOLEAN ∨ self.type = ConVarType.INTEGER)
    (hp : self.writePermitted cheatsEnabled) (hn : isInt32 n) :
    (self.setValue cheatsEnabled (ConVarValue.ofString (to_string_int n)) runCallback).convar.value
      = to_string_int n ∧
    (self.setValue cheatsEnabled (ConVarValue.ofString (to_string_int n))
      runCallback).convar.getValueInt = Except.ok n := by
  have he := encode_text_integral_ok self.type (to_string_int n) n ht (stoi_to_string_int n hn)
  rw [setValue_value_of_encode cheatsEnabled self _ runCallback _ hp he]
  refine ⟨rfl, ?_⟩
  exact (getValueInt_integral { self with value := to_string_int n } ht).trans
    (stoi_to_string_int n hn)

/-- C3, the example of the spec: the input "42" sets the value to 42, here on
a BOOLEAN variable, where the stored string is "42" itself. -/
theorem setValue_decimal_text_stores_it_witness :
    (boolVar.type = ConVarType.BOOLEAN ∨ boolVar.type = ConVarType.INTEGER) ∧
    boolVar.writePermitted false ∧ isInt32 42 ∧ to_string_int 42 = "42" ∧
    (boolVar.setValue false (ConVarValue.ofString "42") true).convar.value = "42" ∧
    (boolVar.setValue false (ConVarValue.ofString "42") true).convar.getValueInt
      = Except.ok 42 :=
  ⟨by decide, by decide, by decide, by decide,
    setValue_decimal_text_stores_it false boolVar 42 true (by decide) (by decide) (by decide)⟩

/-- C2 as stated fails for a double default: `std::to_string` keeps six
digits after the point, so the default `2^-30` is stored as "0.000000" and
`getValue<double>()` returns zero, not the default. -/
theorem construct_get_double_not_round_trip :
    tinyDouble.isBinary64 ∧
    (ConVar.create "x" (ConVarValue.ofDouble tinyDouble) "" CON_FLAG_NONE noCallback).value
      = "0.000000" ∧
    (ConVar.create "x" (ConVarValue.ofDouble tinyDouble) "" CON_FLAG_NONE
      noCallback).getValueDouble = Except.ok (Double.finite false 0 (-1074)) ∧
    (ConVar.create "x" (ConVarValue.ofDouble tinyDouble) "" CON_FLAG_NONE
      noCallback).getValueDouble ≠ Except.ok tinyDouble := by
  decide

/-- C2, amended: constructing a variable from a boolean, an integer or a text
default and reading it back at the default's own kind returns the default;
for a double default `getValue<double>()` returns what `std::stod` reads from
the six-decimal rendering of the default. -/
theorem construct_get_round_trip (name description : String)
    (onChanged : String → CallbackResult) :
    (∀ b : Bool, (ConVar.create name (ConVarValue.ofBool b) description CON_FLAG_NONE
      onChanged).getValueBool = Except.ok b) ∧
    (∀ n : Int, isInt32 n → (ConVar.create name (ConVarValue.ofInt n) description CON_FLAG_NONE
      onChanged).getValueInt = Except.ok n) ∧
    (∀ s : String, (ConVar.create name (ConVarValue.ofString s) description CON_FLAG_NONE
      onChanged).getValueString = s) ∧
    (∀ d : Double, (ConVar.create name (ConVarValue.ofDouble d) description CON_FLAG_NONE
      onChanged).getValueDouble = stod (to_string_double d)) := by
  refine ⟨?_, ?_, ?_, ?_⟩
  · intro b
    cases b
    · show (stoi (to_string_bool false)).map (fun n => decide (n ≠ 0)) = Except.ok false
      decide
    · show (stoi (to_string_bool true)).map (fun n => decide (n ≠ 0)) = Except.ok true
      decide
  · intro n hn
    exact stoi_to_string_int n hn
  · intro s
    rfl
  · intro d
    rfl

/-- C2, amended, at the defaults `true`, `-7`, "abc" and `1.5`. -/
theorem construct_get_round_trip_witness :
    isInt32 (-7) ∧
    (ConVar.create "x" (ConVarValue.ofBool true) "" CON_FLAG_NONE noCallback).getValueBool
      = Except.ok true ∧
    (ConVar.create "x" (ConVarValue.ofInt (-7)) "" CON_FLAG_NONE noCallback).getValueInt
      = Except.ok (-7) ∧
    (ConVar.create "x" (ConVarValue.ofString "abc") "" CON_FLAG_NONE noCallback).getValueString
      = "abc" ∧
    doubleVar.getValueDouble = Except.ok (Double.finite false 6755399441055744 (-52)) :=
  ⟨by decide,
    (construct_get_round_trip "x" "" noCallback).1 true,
    (construct_get_round_trip "x" "" noCallback).2.1 (-7) (by decide),
    (construct_get_round_trip "x" "" noCallback).2.2.1 "abc",
    by decide⟩

theorem to_string_size_eq_int (k : Nat) : to_string_size k = to_string_int (k : Int) := by
  unfold to_string_size to_string_int intToChars
  have h : ¬ ((k : Int) < 0) := by omega
  simp [h]

theorem longText_length : longText.length = 2147483648 := by
  show (List.replicate 2147483648 'a').length = 2147483648
  exact List.length_replicate _ _

theorem stoi_letter_first (cs : List Char) :
    stoi (String.mk ('a' :: cs)) = Except.error StdError.invalid_argument := by
  have h1 : skipSpace ('a' :: cs) = 'a' :: cs := by
    rw [skipSpace, if_neg (by decide)]
  have h2 : readSign ('a' :: cs) = (false, 'a' :: cs) := by
    unfold readSign
    split
    · rename_i heq
      injection heq with h _
      exact absurd h (by decide)
    · rename_i heq
      injection heq with h _
      exact absurd h (by decide)
    · rfl
  unfold stoi
  simp only [h1, h2, startsWithDigit]
  rw [if_neg (by decide)]

theorem stoi_longText : stoi longText = Except.error StdError.invalid_argument := by
  have h : List.replicate 2147483648 'a' = 'a' :: List.replicate 2147483647 'a' :=
    List.replicate_succ 'a' 2147483647
  unfold longText
  rw [h]
  exact stoi_letter_first _

/-- C4 as stated fails in two places. The text "99999999999" does not parse
as an `int`, yet its length 11 is not stored: the stored "10" stays and
`std::out_of_range` reaches the caller. A text of `2^31` letters is not a
number, its length is stored as "2147483648", and `getValue<int>()` then does
not return the length, it throws. -/
theorem setValue_unparsable_text_not_always_length :
    (stoi "99999999999" = Except.error StdError.out_of_range ∧
      (intVar.setValue false (ConVarValue.ofString "99999999999") true).convar.value = "10" ∧
      (intVar.setValue false (ConVarValue.ofString "99999999999") true).raised
        = some (Raised.conversion StdError.out_of_range)) ∧
    (stoi longText = Except.error StdError.invalid_argument ∧
      (intVar.setValue false (ConVarValue.ofString longText) true).convar.value
        = "2147483648" ∧
      (intVar.setValue false (ConVarValue.ofString longText) true).convar.getValueInt
        = Except.error StdError.out_of_range) := by
  refine ⟨by decide, stoi_longText, ?_⟩
  have he := encode_text_integral_invalid intVar.type longText (Or.inr rfl) stoi_longText
  rw [setValue_value_of_encode false intVar _ true _ (by decide) he, longText_length]
  decide

/-- C4, amended: on a BOOLEAN or INTEGER variable with the write permitted, a
text of fewer than `2^31` characters from which `std::stoi` can convert
nothing (`std::invalid_argument`) makes `setValue` store the decimal rendering
of the length of the text, and `getValue<int>()` then returns that length. -/
theorem setValue_unparsable_text_stores_length (cheatsEnabled : Bool) (self : ConVar)
    (s : String) (runCallback : Bool)
    (ht : self.type = ConVarType.BOOLEAN ∨ self.type = ConVarType.INTEGER)
    (hp : self.writePermitted cheatsEnabled)
    (hs : stoi s = Except.error StdError.invalid_argument)
    (hl : s.length ≤ 2147483647) :
    (self.setValue cheatsEnabled (ConVarValue.ofString s) runCallback).convar.value
      = to_string_size s.length ∧
    (self.setValue cheatsEnabled (ConVarValue.ofString s) runCallback).convar.getValueInt
      = Except.ok (s.length : Int) := by
  have he := encode_text_integral_invalid self.type s ht hs
  rw [setValue_value_of_encode cheatsEnabled self _ runCallback _ hp he]
  refine ⟨rfl, ?_⟩
  refine (getValueInt_integral { self with value := to_string_size s.length } ht).trans ?_
  show stoi (to_string_size s.length) = Except.ok (s.length : Int)
  rw [to_string_size_eq_int]
  apply stoi_to_string_int
  unfold isInt32 INT_MIN INT_MAX
  omega

/-- C4, the examples of the spec: `setValue("abc")` on an INTEGER variable
gives 3. -/
theorem setValue_unparsable_text_stores_length_witness :
    (intVar.type = ConVarType.BOOLEAN ∨ intVar.type = ConVarType.INTEGER) ∧
    intVar.writePermitted false ∧
    stoi "abc" = Except.error StdError.invalid_argument ∧
    "abc".length ≤ 2147483647 ∧
    (intVar.setValue false (ConVarValue.ofString "abc") true).convar.value = to_string_size 3 ∧
    (intVar.setValue false (ConVarValue.ofString "abc") true).convar.getValueInt
      = Except.ok 3 :=
  ⟨by decide, by decide, by decide, by decide,
    setValue_unparsable_text_stores_length false intVar "abc" true (by decide) (by decide)
      (by decide) (by decide)⟩

/-- C5, the failing inputs: on an INTEGER variable the text "99999999999"
and on a DOUBLE variable the text "1e999" make `setValue` throw
`std::out_of_range` to the caller; no length-based fallback is applied and
the stored string stays what it was. -/
theorem setValue_text_out_of_range_throws :
    ((intVar.setValue false (ConVarValue.ofString "99999999999") true).raised
        = some (Raised.conversion StdError.out_of_range) ∧
      (intVar.setValue false (ConVarValue.ofString "99999999999") true).convar.value = "10") ∧
    ((doubleVar.setValue false (ConVarValue.ofString "1e999") true).raised
        = some (Raised.conversion StdError.out_of_range) ∧
      (doubleVar.setValue false (ConVarValue.ofString "1e999") true).convar.value
        = "1.500000") := by
  refine ⟨by decide, ?_⟩
  decide!

theorem stoi_isInt32 (s : String) (n : Int) (h : stoi s = Except.ok n) : isInt32 n := by
  unfold stoi at h
  dsimp only at h
  by_cases hd : startsWithDigit (readSign (skipSpace s.data)).2 = true
  · rw [if_pos hd] at h
    generalize (if (readSign (skipSpace s.data)).1 = true
      then -((parseNat (readSign (skipSpace s.data)).2 0).1 : Int)
      else ((parseNat (readSign (skipSpace s.data)).2 0).1 : Int)) = w at h
    by_cases hr : INT_MIN ≤ w ∧ w ≤ INT_MAX
    · rw [if_pos hr] at h
      injection h with h
      subst h
      exact hr
    · rw [if_neg hr] at h
      cases h
  · rw [if_neg hd] at h
    cases h

theorem isInt32_clamp (v : Int) :
    isInt32 (if INT_MIN ≤ v ∧ v ≤ INT_MAX then v else INT_MIN) := by
  split
  · rename_i h
    exact h
  · decide

theorem isInt32_doubleToInt (d : Double) : isInt32 (doubleToInt d) := by
  cases d with
  | finite neg m e => exact isInt32_clamp _
  | inf neg =>
    show isInt32 INT_MIN
    decide
  | nan neg =>
    show isInt32 INT_MIN
    decide

/-- What `setValue` stores in an INTEGER variable is the rendering of an
`int`, for every input a caller can pass whose text is shorter than `2^31`. -/
theorem encode_integer_isIntString (x : ConVarValue) (v : String)
    (hw : x.wellFormed) (hs : x.shortText)
    (he : ConVar.encode ConVarType.INTEGER x = Except.ok v) : isIntString v := by
  cases x with
  | ofBool b =>
    simp only [ConVar.encode, Except.ok.injEq] at he
    subst he
    exact ⟨if b then 1 else 0, by cases b <;> decide, rfl⟩
  | ofInt n =>
    simp only [ConVar.encode, Except.ok.injEq] at he
    subst he
    exact ⟨n, hw, rfl⟩
  | ofDouble d =>
    simp only [ConVar.encode, Except.ok.injEq] at he
    subst he
    exact ⟨doubleToInt d, isInt32_doubleToInt d, rfl⟩
  | ofString s =>
    simp only [ConVar.encode] at he
    split at he
    · rename_i n hn
      injection he with he
      subst he
      exact ⟨n, stoi_isInt32 s n hn, rfl⟩
    · injection he with he
      subst he
      refine ⟨(s.length : Int), ?_, to_string_size_eq_int _⟩
      have : s.length ≤ 2147483647 := hs
      unfold isInt32 INT_MIN INT_MAX
      omega
    · exact absurd he (by simp)

/-- After `setValue` the stored string is the old one or the encoded input. -/
theorem setValue_value_cases (cheatsEnabled : Bool) (self : ConVar) (newValue : ConVarValue)
    (runCallback : Bool) :
    (self.setValue cheatsEnabled newValue runCallback).convar.value = self.value ∨
    ConVar.encode self.type newValue
      = Except.ok (self.setValue cheatsEnabled newValue runCallback).convar.value := by
  unfold ConVar.setValue
  split
  · exact Or.inl rfl
  · split
    · exact Or.inl rfl
    · rename_i v hv
      right
      cases runCallback
      · exact hv
      · simp only [if_true]
        cases self.changedCallback v <;> exact hv

theorem setValue_type (cheatsEnabled : Bool) (self : ConVar) (newValue : ConVarValue)
    (runCallback : Bool) :
    (self.setValue cheatsEnabled newValue runCallback).convar.type = self.type := by
  rw [setValue_convar_eq]

theorem afterCalls_integer_isIntString (self : ConVar) (calls : List SetValueCall)
    (ht : self.type = ConVarType.INTEGER) (hv : isIntString self.value)
    (hc : ∀ c ∈ calls, c.newValue.wellFormed ∧ c.newValue.shortText) :
    (self.afterCalls calls).type = ConVarType.INTEGER ∧
    isIntString (self.afterCalls calls).value := by
  induction calls generalizing self with
  | nil => exact ⟨ht, hv⟩
  | cons c cs ih =>
    unfold ConVar.afterCalls
    have hc1 := hc c (List.mem_cons_self c cs)
    apply ih
    · rw [setValue_type, ht]
    · rcases setValue_value_cases c.cheatsEnabled self c.newValue c.runCallback with h | h
      · rw [h]
        exact hv
      · rw [ht] at h
        exact encode_integer_isIntString _ _ hc1.1 hc1.2 h
    · intro c1 h1
      exact hc c1 (List.mem_cons_of_mem c h1)

/-- C6 as stated fails: the INTEGER variable constructed from the default 10
(no flag, empty registries), after `setValue` of a text of `2^31` letters,
holds "2147483648", which is not the encoding of an `int`, and
`getValue<int>()` fails with `std::out_of_range`. -/
theorem integer_value_can_stop_parsing :
    (ConVar.construct Registries.empty 1 "i" (ConVarValue.ofInt 10) "" CON_FLAG_NONE
      noCallback).convar = intVar ∧
    intVar.type = ConVarType.INTEGER ∧
    (intVar.afterCalls [SetValueCall.mk false (ConVarValue.ofString longText) true]).value
      = "2147483648" ∧
    stoi "2147483648" = Except.error StdError.out_of_range ∧
    (intVar.afterCalls [SetValueCall.mk false (ConVarValue.ofString longText) true]).getValueInt
      = Except.error StdError.out_of_range := by
  have he := encode_text_integral_invalid intVar.type longText (Or.inr rfl) stoi_longText
  have hv := setValue_value_of_encode false intVar _ true _ (by decide) he
  refine ⟨rfl, ?_⟩
  unfold ConVar.afterCalls ConVar.afterCalls
  simp only [hv, longText_length]
  decide

/-- C7: on a STRING variable with the write permitted, `setValue(n)` of an
integer stores the decimal text of `n` itself, which `getValue<string>()`
then returns. -/
theorem setValue_int_on_string_stores_decimal (cheatsEnabled : Bool) (self : ConVar) (n : Int)
    (runCallback : Bool) (ht : self.type = ConVarType.STRING)
    (hp : self.writePermitted cheatsEnabled) :
    (self.setValue cheatsEnabled (ConVarValue.ofInt n) runCallback).convar.value
      = to_string_int n ∧
    (self.setValue cheatsEnabled (ConVarValue.ofInt n) runCallback).convar.getValueString
      = to_string_int n := by
  have he : ConVar.encode self.type (ConVarValue.ofInt n) = Except.ok (to_string_int n) := by
    rw [ht]
    rfl
  rw [setValue_value_of_encode cheatsEnabled self _ runCallback _ hp he]
  exact ⟨rfl, rfl⟩

/-- C7, the example of the spec: `setValue(5)` on a STRING variable stores the
text "5", not the length 1. -/
theorem setValue_int_on_string_stores_decimal_witness :
    stringVar.type = ConVarType.STRING ∧ stringVar.writePermitted false ∧
    to_string_int 5 = "5" ∧
    (stringVar.setValue false (ConVarValue.ofInt 5) true).convar.value = to_string_int 5 ∧
    (stringVar.setValue false (ConVarValue.ofInt 5) true).convar.getValueString
      = to_string_int 5 :=
  ⟨by decide, by decide, by decide,
    setValue_int_on_string_stores_decimal false stringVar 5 true (by decide) (by decide)⟩

/-- C8, the failing input: the write is permitted and `runCallback` is true,
yet on the text "99999999999" an INTEGER variable throws `std::out_of_range`
before line 208 and the changed callback is not called at all. -/
theorem setValue_out_of_range_skips_callback :
    intVar.writePermitted false ∧
    (intVar.setValue false (ConVarValue.ofString "99999999999") true).callbackArgs = [] ∧
    (intVar.setValue false (ConVarValue.ofString "99999999999") true).raised
      = some (Raised.conversion StdError.out_of_range) := by
  decide

/-- C9 as stated fails: a callback that throws an object not derived from
`std::exception` is not caught at line 211; the fault leaves `setValue`
(the new value "99" is stored all the same). -/
theorem setValue_callback_fault_can_propagate :
    throwOtherVar.writePermitted false ∧
    throwOtherVar.changedCallback "99" = CallbackResult.throwsOther ∧
    (throwOtherVar.setValue false (ConVarValue.ofInt 99) true).raised
      = some Raised.fromCallback ∧
    (throwOtherVar.setValue false (ConVarValue.ofInt 99) true).convar.value = "99" := by
  decide

/-- C9, amended: on a permitted write whose input is encoded without a
conversion error, a changed callback that throws an exception of the
`std::exception` family is called once, the exception is logged and does not
leave `setValue`, and the stored string is the newly encoded one. -/
theorem setValue_absorbs_std_exception (cheatsEnabled : Bool) (self : ConVar)
    (newValue : ConVarValue) (v what : String)
    (hp : self.writePermitted cheatsEnabled)
    (he : ConVar.encode self.type newValue = Except.ok v)
    (hcb : self.changedCallback v = CallbackResult.throwsStdException what) :
    (self.setValue cheatsEnabled newValue true).raised = none ∧
    (self.setValue cheatsEnabled newValue true).convar.value = v ∧
    (self.setValue cheatsEnabled newValue true).callbackArgs = [v] ∧
    (self.setValue cheatsEnabled newValue true).log
      = ["Encountered error executing convar callback: " ++ what] := by
  unfold ConVar.setValue
  rw [guard_of_writePermitted cheatsEnabled self hp]
  simp [he, hcb]

/-- C9, amended, on a variable whose callback throws a `std::runtime_error`:
`setValue(99)` returns normally and the value is 99, not the previous 10. -/
theorem setValue_absorbs_std_exception_witness :
    throwStdVar.writePermitted false ∧
    ConVar.encode throwStdVar.type (ConVarValue.ofInt 99) = Except.ok "99" ∧
    throwStdVar.changedCallback "99" = CallbackResult.throwsStdException "boom" ∧
    (throwStdVar.setValue false (ConVarValue.ofInt 99) true).raised = none ∧
    (throwStdVar.setValue false (ConVarValue.ofInt 99) true).convar.value = "99" ∧
    (throwStdVar.setValue false (ConVarValue.ofInt 99) true).callbackArgs = ["99"] ∧
    (throwStdVar.setValue false (ConVarValue.ofInt 99) true).log
      = ["Encountered error executing convar callback: " ++ "boom"] :=
  ⟨by decide, by decide, by decide,
    setValue_absorbs_std_exception false throwStdVar (ConVarValue.ofInt 99) "99" "boom"
      (by decide) (by decide) (by decide)⟩

/-- C10: `setValue` never changes the type tag: for every variable, every
input, either value of `runCallback` and either state of the cheats check
(so for permitted and rejected writes, throwing or not), `getType()` after
the call is `getType()` before it. -/
theorem setValue_preserves_type (cheatsEnabled : Bool) (self : ConVar) (newValue : ConVarValue)
    (runCallback : Bool) :
    (self.setValue cheatsEnabled newValue runCallback).convar.getType = self.getType := by
  unfold ConVar.getType
  rw [setValue_convar_eq]

/-- C12: `getValue<std::string>()` returns the stored string as it is, for
a variable of any type: changing the type tag does not change the result. -/
theorem getValueString_is_stored_string (self : ConVar) (t : ConVarType) :
    self.getValueString = self.value ∧
    ({ self with type := t } : ConVar).getValueString = self.value :=
  ⟨rfl, rfl⟩

/-- C13 as stated fails for `getValue<int>()`: the length is a `std::size_t`
and the cast to `int` wraps, so a STRING variable holding `2^31` characters
answers `-2147483648`, not the length. -/
theorem getValueInt_on_string_can_wrap :
    longStringVar.type = ConVarType.STRING ∧
    longStringVar.value.length = 2147483648 ∧
    longStringVar.getValueInt = Except.ok (-2147483648) := by
  refine ⟨rfl, longText_length, ?_⟩
  show Except.ok (wrapInt32 (longText.length : Int)) = Except.ok (-2147483648)
  rw [longText_length]
  decide

/-- C13, amended: on a STRING variable with stored text `s`,
`getValue<bool>()` is `length(s) != 0`, `getValue<int>()` is the length cast
to `int` (reduced modulo `2^32`), which is `length(s)` when `s` has fewer than
`2^31` characters, whatever the content of `s`. -/
theorem getValue_numeric_on_string (self : ConVar) (ht : self.type = ConVarType.STRING) :
    self.getValueBool = Except.ok (decide (self.value.length ≠ 0)) ∧
    self.getValueInt = Except.ok (wrapInt32 (self.value.length : Int)) ∧
    (self.value.length ≤ 2147483647 →
      self.getValueInt = Except.ok (self.value.length : Int)) := by
  refine ⟨?_, ?_, ?_⟩
  · simp [ConVar.getValueBool, ht]
  · simp [ConVar.getValueInt, ht]
  · intro hl
    have hw : wrapInt32 (self.value.length : Int) = (self.value.length : Int) := by
      unfold wrapInt32
      omega
    simp only [ConVar.getValueInt, ht, hw]

/-- C13, amended, on the stored text "42": the answers are the length 2 and
`true`, not 42. -/
theorem getValue_numeric_on_string_witness :
    numeralStringVar.type = ConVarType.STRING ∧
    numeralStringVar.value = "42" ∧
    numeralStringVar.getValueBool = Except.ok true ∧
    numeralStringVar.getValueInt = Except.ok 2 := by
  have h := getValue_numeric_on_string numeralStringVar (by decide)
  exact ⟨by decide, by decide, h.1, h.2.2 (by decide)⟩

/-- C14: on a BOOLEAN or INTEGER variable whose stored string is the decimal
rendering of a 32-bit integer `n`, `getValue<int>()` returns `n` and
`getValue<bool>()` returns `n != 0`. -/
theorem getValue_numeric_on_integral (self : ConVar) (n : Int)
    (ht : self.type = ConVarType.BOOLEAN ∨ self.type = ConVarType.INTEGER)
    (hv : self.value = to_string_int n) (hn : isInt32 n) :
    self.getValueInt = Except.ok n ∧
    self.getValueBool = Except.ok (decide (n ≠ 0)) := by
  have hs : stoi self.value = Except.ok n := by
    rw [hv]
    exact stoi_to_string_int n hn
  refine ⟨(getValueInt_integral self ht).trans hs, ?_⟩
  rcases ht with h | h <;> simp [ConVar.getValueBool, h, hs, Except.map]

/-- C14 on the BOOLEAN variable storing "0" and the INTEGER variable storing
"10". -/
theorem getValue_numeric_on_integral_witness :
    (boolVar.type = ConVarType.BOOLEAN ∨ boolVar.type = ConVarType.INTEGER) ∧
    boolVar.value = to_string_int 0 ∧ isInt32 0 ∧
    boolVar.getValueInt = Except.ok 0 ∧
    boolVar.getValueBool = Except.ok (decide ((0 : Int) ≠ 0)) ∧
    intVar.getValueInt = Except.ok 10 ∧ intVar.getValueBool = Except.ok true :=
  ⟨by decide, by decide, by decide,
    (getValue_numeric_on_integral boolVar 0 (by decide) (by decide) (by decide)).1,
    (getValue_numeric_on_integral boolVar 0 (by decide) (by decide) (by decide)).2,
    by decide, by decide⟩

theorem to_string_bool_eq (b : Bool) : to_string_bool b = if b then "1" else "0" := by
  cases b <;> decide

theorem to_string_int_of_bool (b : Bool) :
    to_string_int (if b then 1 else 0) = if b then "1" else "0" := by
  cases b <;> decide

/-- C15: on a BOOLEAN variable with the write permitted, `setValue` of a
boolean or of an integer stores "1" when the input is `true` or non-zero and
"0" when it is `false` or zero; after a write of any numeric input, a double
included, the stored string is "0" or "1". -/
theorem setValue_numeric_on_boolean (cheatsEnabled : Bool) (self : ConVar) (runCallback : Bool)
    (ht : self.type = ConVarType.BOOLEAN) (hp : self.writePermitted cheatsEnabled) :
    (∀ b : Bool, (self.setValue cheatsEnabled (ConVarValue.ofBool b) runCallback).convar.value
      = if b then "1" else "0") ∧
    (∀ n : Int, (self.setValue cheatsEnabled (ConVarValue.ofInt n) runCallback).convar.value
      = if n = 0 then "0" else "1") ∧
    (∀ d : Double,
      (self.setValue cheatsEnabled (ConVarValue.ofDouble d) runCallback).convar.value = "0" ∨
      (self.setValue cheatsEnabled (ConVarValue.ofDouble d) runCallback).convar.value = "1") := by
  refine ⟨?_, ?_, ?_⟩
  · intro b
    have he : ConVar.encode self.type (ConVarValue.ofBool b)
        = Except.ok (to_string_bool b) := by
      rw [ht]
      rfl
    rw [setValue_value_of_encode cheatsEnabled self _ runCallback _ hp he]
    exact to_string_bool_eq b
  · intro n
    have he : ConVar.encode self.type (ConVarValue.ofInt n)
        = Except.ok (to_string_bool (decide (n ≠ 0))) := by
      rw [ht]
      rfl
    rw [setValue_value_of_encode cheatsEnabled self _ runCallback _ hp he]
    show to_string_bool (decide (n ≠ 0)) = if n = 0 then "0" else "1"
    rw [to_string_bool_eq]
    by_cases hz : n = 0 <;> simp [hz]
  · intro d
    have he : ConVar.encode self.type (ConVarValue.ofDouble d)
        = Except.ok (to_string_bool (doubleToBool d)) := by
      rw [ht]
      rfl
    rw [setValue_value_of_encode cheatsEnabled self _ runCallback _ hp he]
    show to_string_bool (doubleToBool d) = "0" ∨ to_string_bool (doubleToBool d) = "1"
    cases doubleToBool d
    · exact Or.inl (by decide)
    · exact Or.inr (by decide)

/-- C15 on the BOOLEAN variable with default `false`: `setValue(true)` and
`setValue(7)` store "1", `setValue(0)` stores "0". -/
theorem setValue_numeric_on_boolean_witness :
    boolVar.type = ConVarType.BOOLEAN ∧ boolVar.writePermitted false ∧
    (boolVar.setValue false (ConVarValue.ofBool true) true).convar.value = "1" ∧
    (boolVar.setValue false (ConVarValue.ofInt 7) true).convar.value = "1" ∧
    (boolVar.setValue false (ConVarValue.ofInt 0) true).convar.value = "0" :=
  ⟨by decide, by decide,
    (setValue_numeric_on_boolean false boolVar true (by decide) (by decide)).1 true,
    (setValue_numeric_on_boolean false boolVar true (by decide) (by decide)).2.1 7,
    (setValue_numeric_on_boolean false boolVar true (by decide) (by decide)).2.1 0⟩

/-- C16: on an INTEGER variable with the write permitted, `setValue` of an
integer `n` stores the decimal rendering of `n`, and `setValue` of a boolean
stores "1" for `true` and "0" for `false`. -/
theorem setValue_numeric_on_integer (cheatsEnabled : Bool) (self : ConVar) (runCallback : Bool)
    (ht : self.type = ConVarType.INTEGER) (hp : self.writePermitted cheatsEnabled) :
    (∀ n : Int, (self.setValue cheatsEnabled (ConVarValue.ofInt n) runCallback).convar.value
      = to_string_int n) ∧
    (∀ b : Bool, (self.setValue cheatsEnabled (ConVarValue.ofBool b) runCallback).convar.value
      = if b then "1" else "0") := by
  refine ⟨?_, ?_⟩
  · intro n
    have he : ConVar.encode self.type (ConVarValue.ofInt n)
        = Except.ok (to_string_int n) := by
      rw [ht]
      rfl
    rw [setValue_value_of_encode cheatsEnabled self _ runCallback _ hp he]
  · intro b
    have he : ConVar.encode self.type (ConVarValue.ofBool b)
        = Except.ok (to_string_int (if b then 1 else 0)) := by
      rw [ht]
      rfl
    rw [setValue_value_of_encode cheatsEnabled self _ runCallback _ hp he]
    exact to_string_int_of_bool b

/-- C16 on the INTEGER variable with default 10: `setValue(-7)` stores "-7",
`setValue(true)` stores "1". -/
theorem setValue_numeric_on_integer_witness :
    intVar.type = ConVarType.INTEGER ∧ intVar.writePermitted false ∧
    to_string_int (-7) = "-7" ∧
    (intVar.setValue false (ConVarValue.ofInt (-7)) true).convar.value = to_string_int (-7) ∧
    (intVar.setValue false (ConVarValue.ofBool true) true).convar.value = "1" :=
  ⟨by decide, by decide, by decide,
    (setValue_numeric_on_integer false intVar true (by decide) (by decide)).1 (-7),
    (setValue_numeric_on_integer false intVar true (by decide) (by decide)).2 true⟩

/-- C17: on a STRING variable with the write permitted, `setValue(s)` of a
text stores `s` itself, and `getValue<std::string>()` then returns `s`, for
every text (empty, or looking like a number). -/
theorem setValue_text_on_string_verbatim (cheatsEnabled : Bool) (self : ConVar) (s : String)
    (runCallback : Bool) (ht : self.type = ConVarType.STRING)
    (hp : self.writePermitted cheatsEnabled) :
    (self.setValue cheatsEnabled (ConVarValue.ofString s) runCallback).convar.value = s ∧
    (self.setValue cheatsEnabled (ConVarValue.ofString s) runCallback).convar.getValueString
      = s := by
  have he : ConVar.encode self.type (ConVarValue.ofString s) = Except.ok s := by
    rw [ht]
    rfl
  rw [setValue_value_of_encode cheatsEnabled self _ runCallback _ hp he]
  exact ⟨rfl, rfl⟩

/-- C17 on the texts "" and " 007": both are stored as they are. -/
theorem setValue_text_on_string_verbatim_witness :
    stringVar.type = ConVarType.STRING ∧ stringVar.writePermitted false ∧
    (stringVar.setValue false (ConVarValue.ofString "") true).convar.getValueString = "" ∧
    (stringVar.setValue false (ConVarValue.ofString " 007") true).convar.getValueString
      = " 007" :=
  ⟨by decide, by decide,
    (setValue_text_on_string_verbatim false stringVar "" true (by decide) (by decide)).2,
    (setValue_text_on_string_verbatim false stringVar " 007" true (by decide) (by decide)).2⟩

end chira

/-! ## Construction and the registries -/

namespace chira

theorem create_name (name : String) (defaultValue : ConVarValue) (description : String)
    (flags : Nat) (onChanged : String → CallbackResult) :
    (ConVar.create name defaultValue description flags onChanged).name = name := by
  cases defaultValue <;> rfl

theorem create_flags (name : String) (defaultValue : ConVarValue) (description : String)
    (flags : Nat) (onChanged : String → CallbackResult) :
    (ConVar.create name defaultValue description flags onChanged).flags = flags := by
  cases defaultValue <;> rfl

theorem loadCached_eq (r : Registries) (convar : ConVar) :
    ConVarRegistry.loadCached r convar
      = { convar with value := (ConVarRegistry.loadCached r convar).value } := by
  unfold ConVarRegistry.loadCached
  split
  · split
    · split <;> rfl
    · rfl
  · rfl

theorem loadCached_name (r : Registries) (convar : ConVar) :
    (ConVarRegistry.loadCached r convar).name = convar.name := by
  rw [loadCached_eq]

theorem loadCached_type (r : Registries) (convar : ConVar) :
    (ConVarRegistry.loadCached r convar).type = convar.type := by
  rw [loadCached_eq]

theorem loadCached_of_nothingCached (r : Registries) (convar : ConVar)
    (h : r.nothingCached convar.name convar.flags) :
    ConVarRegistry.loadCached r convar = convar := by
  unfold ConVarRegistry.loadCached
  rcases h with h | h
  · have hf : convar.hasFlag CON_FLAG_CACHE = false := h
    simp [hf]
  · split
    · rw [h]
    · rfl

theorem registerConCommand_cache (r : Registries) (p : Nat) (c : ConCommand) :
    (ConCommandRegistry.registerConCommand r p c).2.cache = r.cache := by
  unfold ConCommandRegistry.registerConCommand
  split <;> rfl

/-- The object a constructor leaves is the initialised one, or that one with
the value loaded from the cache the constructor started with. -/
theorem construct_convar_cases (r : Registries) (p : Nat) (name : String)
    (defaultValue : ConVarValue) (description : String) (flags : Nat)
    (onChanged : String → CallbackResult) :
    (ConVar.construct r p name defaultValue description flags onChanged).convar
      = ConVar.create name defaultValue description flags onChanged ∨
    ∃ r2 : Registries, r2.cache = r.cache ∧
      (ConVar.construct r p name defaultValue description flags onChanged).convar
        = ConVarRegistry.loadCached r2
            (ConVar.create name defaultValue description flags onChanged) := by
  unfold ConVar.construct ConVarRegistry.registerConVar
  dsimp only
  split
  · exact Or.inl rfl
  · right
    refine ⟨_, ?_, rfl⟩
    show (ConCommandRegistry.registerConCommand r p _).2.cache = r.cache
    exact registerConCommand_cache r p _

theorem nothingCached_of_cache_eq (r r2 : Registries) (name : String) (flags : Nat)
    (hc : r2.cache = r.cache) (h : r.nothingCached name flags) : r2.nothingCached name flags := by
  unfold Registries.nothingCached Registries.cacheGet at *
  rw [hc]
  exact h

theorem construct_type (r : Registries) (p : Nat) (name : String)
    (defaultValue : ConVarValue) (description : String) (flags : Nat)
    (onChanged : String → CallbackResult) :
    (ConVar.construct r p name defaultValue description flags onChanged).convar.type
      = (ConVar.create name defaultValue description flags onChanged).type := by
  rcases construct_convar_cases r p name defaultValue description flags onChanged with h | h
  · rw [h]
  · obtain ⟨r2, _, h⟩ := h
    rw [h, loadCached_type]

theorem construct_value_of_nothingCached (r : Registries) (p : Nat) (name : String)
    (defaultValue : ConVarValue) (description : String) (flags : Nat)
    (onChanged : String → CallbackResult) (hn : r.nothingCached name flags) :
    (ConVar.construct r p name defaultValue description flags onChanged).convar
      = ConVar.create name defaultValue description flags onChanged := by
  rcases construct_convar_cases r p name defaultValue description flags onChanged with h | h
  · exact h
  · obtain ⟨r2, hc, h⟩ := h
    rw [h]
    apply loadCached_of_nothingCached
    rw [create_name, create_flags]
    exact nothingCached_of_cache_eq r r2 name flags hc hn

/-- C11 as stated fails for a variable with the CACHE flag whose name has an
entry in the settings cache: constructed from the integer default 0 while the
cache holds 7, it is of type INTEGER but its stored string, as
`getValue<std::string>()` returns it, is "7" and not the rendering "0" of the
default. -/
theorem construct_can_store_cached_value :
    (ConVar.construct cachedSeven 5 "x" (ConVarValue.ofInt 0) "" CON_FLAG_CACHE
      noCallback).convar.type = ConVarType.INTEGER ∧
    to_string_int 0 = "0" ∧
    (ConVar.construct cachedSeven 5 "x" (ConVarValue.ofInt 0) "" CON_FLAG_CACHE
      noCallback).convar.getValueString = "7" := by
  decide

/-- C11, amended: construction fixes the type tag from the kind of the
default value in every case (BOOLEAN, INTEGER, DOUBLE, STRING); and when
registration loads nothing from the settings cache (no CACHE flag, or no
cache entry under the name), the stored string read back by
`getValue<std::string>()` is "1"/"0" for a boolean default, the decimal
rendering for an integer default and the text itself for a text default. -/
theorem construct_type_and_stored_string (r : Registries) (p : Nat) (name description : String)
    (flags : Nat) (onChanged : String → CallbackResult) :
    ((∀ b : Bool, (ConVar.construct r p name (ConVarValue.ofBool b) description flags
        onChanged).convar.getType = ConVarType.BOOLEAN) ∧
      (∀ n : Int, (ConVar.construct r p name (ConVarValue.ofInt n) description flags
        onChanged).convar.getType = ConVarType.INTEGER) ∧
      (∀ d : Double, (ConVar.construct r p name (ConVarValue.ofDouble d) description flags
        onChanged).convar.getType = ConVarType.DOUBLE) ∧
      (∀ s : String, (ConVar.construct r p name (ConVarValue.ofString s) description flags
        onChanged).convar.getType = ConVarType.STRING)) ∧
    (r.nothingCached name flags →
      (∀ b : Bool, (ConVar.construct r p name (ConVarValue.ofBool b) description flags
        onChanged).convar.getValueString = if b then "1" else "0") ∧
      (∀ n : Int, (ConVar.construct r p name (ConVarValue.ofInt n) description flags
        onChanged).convar.getValueString = to_string_int n) ∧
      (∀ s : String, (ConVar.construct r p name (ConVarValue.ofString s) description flags
        onChanged).convar.getValueString = s)) := by
  refine ⟨⟨?_, ?_, ?_, ?_⟩, ?_⟩
  · intro b
    exact construct_type r p name _ description flags onChanged
  · intro n
    exact construct_type r p name _ description flags onChanged
  · intro d
    exact construct_type r p name _ description flags onChanged
  · intro s
    exact construct_type r p name _ description flags onChanged
  · intro hn
    refine ⟨?_, ?_, ?_⟩
    · intro b
      rw [construct_value_of_nothingCached r p name _ description flags onChanged hn]
      exact to_string_bool_eq b
    · intro n
      rw [construct_value_of_nothingCached r p name _ description flags onChanged hn]
      rfl
    · intro s
      rw [construct_value_of_nothingCached r p name _ description flags onChanged hn]
      rfl

/-- C11, amended, on two constructions: a CACHE variable "y" that has no
entry in the cache keeps the rendering "0" of its default, and the CACHE
variable "x", which has one, is of type INTEGER all the same. -/
theorem construct_type_and_stored_string_witness :
    cachedSeven.nothingCached "y" CON_FLAG_CACHE ∧
    (ConVar.construct cachedSeven 5 "y" (ConVarValue.ofInt 0) "" CON_FLAG_CACHE
      noCallback).convar.getValueString = to_string_int 0 ∧
    (ConVar.construct cachedSeven 5 "y" (ConVarValue.ofBool true) "" CON_FLAG_CACHE
      noCallback).convar.getValueString = "1" ∧
    (ConVar.construct cachedSeven 5 "x" (ConVarValue.ofInt 0) "" CON_FLAG_CACHE
      noCallback).convar.getType = ConVarType.INTEGER :=
  ⟨by decide,
    ((construct_type_and_stored_string cachedSeven 5 "y" "" CON_FLAG_CACHE noCallback).2
      (by decide)).2.1 0,
    ((construct_type_and_stored_string cachedSeven 5 "y" "" CON_FLAG_CACHE noCallback).2
      (by decide)).1 true,
    (construct_type_and_stored_string cachedSeven 5 "x" "" CON_FLAG_CACHE noCallback).1.2.1 0⟩

theorem find_name_append_new {α : Type} (l : List (Nat × α)) (nm : α → String) (p : Nat)
    (x : α) (h : (l.any (fun e => nm e.2 == nm x)) = false) :
    ((l ++ [(p, x)]).find? (fun e => nm e.2 == nm x)).map Prod.fst = some p := by
  have hnone : l.find? (fun e => nm e.2 == nm x) = none := by
    rw [List.find?_eq_none]
    exact List.any_eq_false.mp h
  rw [List.find?_append, hnone]
  simp [List.find?]

theorem count_name_append_new {α : Type} (l : List (Nat × α)) (nm : α → String) (p : Nat)
    (x : α) (h : (l.any (fun e => nm e.2 == nm x)) = false) :
    ((l ++ [(p, x)]).map (fun e => nm e.2)).count (nm x) = 1 := by
  have hnot : nm x ∉ l.map (fun e => nm e.2) := by
    intro hmem
    obtain ⟨e, he, hname⟩ := List.mem_map.mp hmem
    have := List.any_eq_false.mp h e he
    simp [hname] at this
  rw [List.map_append, List.count_append, List.count_eq_zero.mpr hnot]
  simp

theorem registerConCommand_ok (r : Registries) (p : Nat) (c : ConCommand)
    (h : (ConCommandRegistry.registerConCommand r p c).1 = true) :
    ConCommandRegistry.hasConCommand r c.name = false ∧
    ConVarRegistry.hasConVar r c.name = false ∧
    (ConCommandRegistry.registerConCommand r p c).2
      = { r with concommands := r.concommands ++ [(p, c)] } := by
  unfold ConCommandRegistry.registerConCommand at h ⊢
  split at h
  · exact absurd h (by simp)
  · rename_i hc
    simp only [Bool.or_eq_true, not_or, Bool.not_eq_true] at hc
    rw [if_neg (by simp [hc.1, hc.2])]
    exact ⟨hc.1, hc.2, rfl⟩

theorem registerConVar_ok (r : Registries) (p : Nat) (v : ConVar)
    (h : (ConVarRegistry.registerConVar r p v).ok = true) :
    ConCommandRegistry.hasConCommand r v.name = false ∧
    ConVarRegistry.hasConVar r v.name = false ∧
    (ConVarRegistry.registerConVar r p v).registries
      = { r with convars := r.convars ++ [(p, ConVarRegistry.loadCached r v)] } := by
  unfold ConVarRegistry.registerConVar at h ⊢
  split at h
  · exact absurd h (by simp)
  · rename_i hc
    simp only [Bool.or_eq_true, not_or, Bool.not_eq_true] at hc
    rw [if_neg (by simp [hc.1, hc.2])]
    exact ⟨hc.1, hc.2, rfl⟩

theorem hasConCommand_after_register (r : Registries) (p : Nat) (c : ConCommand) :
    ConCommandRegistry.hasConCommand
      { r with concommands := r.concommands ++ [(p, c)] } c.name = true := by
  simp [ConCommandRegistry.hasConCommand, List.any_append]

theorem hasConVar_after_register (r : Registries) (p : Nat) (v : ConVar) (nm : String)
    (h : v.name = nm) :
    ConVarRegistry.hasConVar { r with convars := r.convars ++ [(p, v)] } nm = true := by
  simp [ConVarRegistry.hasConVar, List.any_append, h]

/-- C18: when a command has been registered, registering a second command
object of the same name returns `false` and leaves the registries as they
were; the lookup of the name still answers the first object and the name
occurs once in the list. The same holds for two variables. -/
theorem second_registration_fails (r : Registries) (p1 p2 : Nat) :
    (∀ c1 c2 : ConCommand,
      (ConCommandRegistry.registerConCommand r p1 c1).1 = true → c2.name = c1.name →
      ConCommandRegistry.registerConCommand
          (ConCommandRegistry.registerConCommand r p1 c1).2 p2 c2
        = (false, (ConCommandRegistry.registerConCommand r p1 c1).2) ∧
      ConCommandRegistry.getConCommand
          (ConCommandRegistry.registerConCommand r p1 c1).2 c1.name = some p1 ∧
      (ConCommandRegistry.getConCommandList
          (ConCommandRegistry.registerConCommand r p1 c1).2).count c1.name = 1) ∧
    (∀ v1 v2 : ConVar,
      (ConVarRegistry.registerConVar r p1 v1).ok = true → v2.name = v1.name →
      (ConVarRegistry.registerConVar
          (ConVarRegistry.registerConVar r p1 v1).registries p2 v2).ok = false ∧
      (ConVarRegistry.registerConVar
          (ConVarRegistry.registerConVar r p1 v1).registries p2 v2).registries
        = (ConVarRegistry.registerConVar r p1 v1).registries ∧
      ConVarRegistry.getConVar
          (ConVarRegistry.registerConVar r p1 v1).registries v1.name = some p1 ∧
      (ConVarRegistry.getConVarList
          (ConVarRegistry.registerConVar r p1 v1).registries).count v1.name = 1) := by
  constructor
  · intro c1 c2 h1 hname
    obtain ⟨hc, _, hr⟩ := registerConCommand_ok r p1 c1 h1
    rw [hr]
    refine ⟨?_, ?_, ?_⟩
    · unfold ConCommandRegistry.registerConCommand
      rw [hname, hasConCommand_after_register r p1 c1]
      rfl
    · exact find_name_append_new r.concommands ConCommand.name p1 c1 hc
    · exact count_name_append_new r.concommands ConCommand.name p1 c1 hc
  · intro v1 v2 h1 hname
    obtain ⟨_, hv, hr⟩ := registerConVar_ok r p1 v1 h1
    rw [hr]
    have hl := loadCached_name r v1
    have hv2 : (r.convars.any (fun e => ConVar.name e.2
        == ConVar.name (ConVarRegistry.loadCached r v1))) = false := by
      rw [hl]
      exact hv
    have hreg : ConVarRegistry.registerConVar
        { r with convars := r.convars ++ [(p1, ConVarRegistry.loadCached r v1)] } p2 v2
        = { ok := false,
            registries :=
              { r with convars := r.convars ++ [(p1, ConVarRegistry.loadCached r v1)] },
            convar := v2 } := by
      unfold ConVarRegistry.registerConVar
      rw [hname, hasConVar_after_register r p1 _ v1.name hl]
      simp
    refine ⟨?_, ?_, ?_, ?_⟩
    · rw [hreg]
    · rw [hreg]
    · have := find_name_append_new r.convars ConVar.name p1 _ hv2
      rw [hl] at this
      exact this
    · have := count_name_append_new r.convars ConVar.name p1 _ hv2
      rw [hl] at this
      exact this

/-- C18 on two command objects named "help", at the addresses 1 and 2, and on
two variable objects named "i", registered in the empty registries. -/
theorem second_registration_fails_witness :
    (ConCommandRegistry.registerConCommand Registries.empty 1 helpCommand).1 = true ∧
    otherHelpCommand.name = helpCommand.name ∧
    (ConCommandRegistry.registerConCommand
        (ConCommandRegistry.registerConCommand Registries.empty 1 helpCommand).2 2
        otherHelpCommand
      = (false, (ConCommandRegistry.registerConCommand Registries.empty 1 helpCommand).2) ∧
    ConCommandRegistry.getConCommand
        (ConCommandRegistry.registerConCommand Registries.empty 1 helpCommand).2
        helpCommand.name = some 1 ∧
    (ConCommandRegistry.getConCommandList
        (ConCommandRegistry.registerConCommand Registries.empty 1 helpCommand).2).count
        helpCommand.name = 1) ∧
    (ConVarRegistry.registerConVar Registries.empty 1 intVar).ok = true ∧
    (ConVarRegistry.registerConVar
        (ConVarRegistry.registerConVar Registries.empty 1 intVar).registries 2 intVar).ok
      = false :=
  ⟨by decide, by decide,
    (second_registration_fails Registries.empty 1 2).1 helpCommand otherHelpCommand
      (by decide) (by decide),
    by decide,
    ((second_registration_fails Registries.empty 1 2).2 intVar intVar (by decide) rfl).1⟩

theorem deregister_after_register (r : Registries) (p : Nat) (c : ConCommand)
    (hp : ∀ e ∈ r.concommands, e.1 ≠ p) :
    ConCommandRegistry.deregisterConCommand
      { r with concommands := r.concommands ++ [(p, c)] } p = r := by
  unfold ConCommandRegistry.deregisterConCommand
  have hold : r.concommands.filter (fun e => e.1 != p) = r.concommands := by
    rw [List.filter_eq_self]
    intro e he
    simp [hp e he]
  simp only [List.filter_append, hold]
  simp

/-- C19: when a variable is constructed under a name that no registered
command or variable uses (the new object lying at an address where no
registered command lies), it ends up registered as a variable and not as a
command: `hasConVar(name)` is true, the lookup answers the new object,
`hasConCommand(name)` is false and the command registry is what it was. -/
theorem construct_registers_as_variable_only (r : Registries) (p : Nat) (name : String)
    (defaultValue : ConVarValue) (description : String) (flags : Nat)
    (onChanged : String → CallbackResult)
    (hc : ConCommandRegistry.hasConCommand r name = false)
    (hv : ConVarRegistry.hasConVar r name = false)
    (hp : ∀ e ∈ r.concommands, e.1 ≠ p) :
    ConVarRegistry.hasConVar
      (ConVar.construct r p name defaultValue description flags onChanged).registries name
      = true ∧
    ConVarRegistry.getConVar
      (ConVar.construct r p name defaultValue description flags onChanged).registries name
      = some p ∧
    ConCommandRegistry.hasConCommand
      (ConVar.construct r p name defaultValue description flags onChanged).registries name
      = false ∧
    (ConVar.construct r p name defaultValue description flags onChanged).registries.concommands
      = r.concommands := by
  have hn := create_name name defaultValue description flags onChanged
  have h1 : (ConCommandRegistry.registerConCommand r p
      (ConVar.create name defaultValue description flags onChanged).toConCommand).2
      = { r with concommands := r.concommands ++
          [(p, (ConVar.create name defaultValue description flags onChanged).toConCommand)] } := by
    unfold ConCommandRegistry.registerConCommand
    have e : (ConVar.create name defaultValue description flags
        onChanged).toConCommand.name = name := hn
    rw [e, hc, hv]
    rfl
  have h2 : (ConVar.construct r p name defaultValue description flags onChanged).registries
      = { r with convars := r.convars ++ [(p, ConVarRegistry.loadCached r
          (ConVar.create name defaultValue description flags onChanged))] } := by
    unfold ConVar.construct
    dsimp only
    rw [h1, deregister_after_register r p _ hp]
    unfold ConVarRegistry.registerConVar
    rw [hn, hc, hv]
    rfl
  have hl : (ConVarRegistry.loadCached r
      (ConVar.create name defaultValue description flags onChanged)).name = name := by
    rw [loadCached_name, hn]
  rw [h2]
  refine ⟨hasConVar_after_register r p _ name hl, ?_, hc, rfl⟩
  have hv2 : (r.convars.any (fun e => ConVar.name e.2 == ConVar.name
      (ConVarRegistry.loadCached r
        (ConVar.create name defaultValue description flags onChanged)))) = false := by
    rw [hl]
    exact hv
  have := find_name_append_new r.convars ConVar.name p _ hv2
  rw [hl] at this
  exact this

/-- C19 on the construction of an integer variable "i" at address 2 while
the command "help" is registered at address 1. -/
theorem construct_registers_as_variable_only_witness :
    ConCommandRegistry.hasConCommand
      (ConCommandRegistry.registerConCommand Registries.empty 1 helpCommand).2 "i" = false ∧
    ConVarRegistry.hasConVar
      (ConCommandRegistry.registerConCommand Registries.empty 1 helpCommand).2 "i" = false ∧
    (∀ e ∈ (ConCommandRegistry.registerConCommand Registries.empty 1
      helpCommand).2.concommands, e.1 ≠ 2) ∧
    ConVarRegistry.hasConVar
      (ConVar.construct (ConCommandRegistry.registerConCommand Registries.empty 1 helpCommand).2
        2 "i" (ConVarValue.ofInt 10) "" CON_FLAG_NONE noCallback).registries "i" = true ∧
    ConVarRegistry.getConVar
      (ConVar.construct (ConCommandRegistry.registerConCommand Registries.empty 1 helpCommand).2
        2 "i" (ConVarValue.ofInt 10) "" CON_FLAG_NONE noCallback).registries "i" = some 2 ∧
    ConCommandRegistry.hasConCommand
      (ConVar.construct (ConCommandRegistry.registerConCommand Registries.empty 1 helpCommand).2
        2 "i" (ConVarValue.ofInt 10) "" CON_FLAG_NONE noCallback).registries "i" = false ∧
    (ConVar.construct (ConCommandRegistry.registerConCommand Registries.empty 1 helpCommand).2
        2 "i" (ConVarValue.ofInt 10) "" CON_FLAG_NONE noCallback).registries.concommands
      = (ConCommandRegistry.registerConCommand Registries.empty 1 helpCommand).2.concommands :=
  ⟨by decide, by decide, by decide,
    construct_registers_as_variable_only _ 2 "i" (ConVarValue.ofInt 10) "" CON_FLAG_NONE
      noCallback (by decide) (by decide) (by decide)⟩

end chira

/-! ## Texts that are numbers: range, suffixes, lengths -/

namespace chira

/-- What `std::stoi` answers on the rendering of any integer, followed by
text that does not start with a digit: the integer if it fits an `int`,
`std::out_of_range` otherwise. -/
theorem stoi_intToChars_append_any (n : Int) (t : List Char)
    (ht : startsWithDigit t = false) :
    stoi (String.mk (intToChars n ++ t))
      = if isInt32 n then Except.ok n else Except.error StdError.out_of_range := by
  unfold stoi intToChars
  by_cases hneg : n < 0
  · simp only [hneg, if_true, List.cons_append]
    have hs : skipSpace ('-' :: (natToChars n.natAbs ++ t)) = '-' :: (natToChars n.natAbs ++ t) := by
      simp [skipSpace, isspace]
    simp only [hs, readSign, startsWithDigit_natToChars, if_true,
      parseNat_natToChars _ _ ht]
    have : -((n.natAbs : Nat) : Int) = n := by omega
    rw [this]
    rfl
  · simp only [hneg, if_false]
    have hd := startsWithDigit_natToChars n.natAbs t
    simp only [skipSpace_of_startsWithDigit _ hd, readSign_of_startsWithDigit _ hd, hd, if_true,
      parseNat_natToChars _ _ ht]
    have : ((n.natAbs : Nat) : Int) = n := by omega
    simp only [Bool.false_eq_true, if_false, this]
    rfl

theorem stoi_to_string_int_out_of_range (n : Int) (hn : ¬ isInt32 n) :
    stoi (to_string_int n) = Except.error StdError.out_of_range := by
  have h := stoi_intToChars_append_any n [] rfl
  rw [if_neg hn] at h
  simpa [to_string_int] using h

theorem to_string_int_append (n : Int) (t : String) :
    to_string_int n ++ t = String.mk (intToChars n ++ t.data) := by
  cases t
  rfl

/-- On a permitted write whose encoding throws, nothing is stored, the
callback is not called and the exception leaves `setValue`. -/
theorem setValue_of_encode_error (cheatsEnabled : Bool) (self : ConVar)
    (newValue : ConVarValue) (runCallback : Bool) (e : StdError)
    (hp : self.writePermitted cheatsEnabled)
    (he : ConVar.encode self.type newValue = Except.error e) :
    self.setValue cheatsEnabled newValue runCallback
      = { convar := self, callbackArgs := [], log := [],
          raised := some (Raised.conversion e) } := by
  unfold ConVar.setValue
  rw [guard_of_writePermitted cheatsEnabled self hp]
  simp only [Bool.false_eq_true, if_false, he]

/-- C23: on a BOOLEAN or INTEGER variable with the write permitted, `setValue`
of a text on which `std::stoi` reports `std::out_of_range` (the decimal
rendering of any integer outside the `int` range is such a text) throws that
error to the caller, leaves the object as it was and does not call the
changed callback. -/
theorem setValue_out_of_range_text_throws (cheatsEnabled : Bool) (self : ConVar)
    (runCallback : Bool)
    (ht : self.type = ConVarType.BOOLEAN ∨ self.type = ConVarType.INTEGER)
    (hp : self.writePermitted cheatsEnabled) :
    (∀ n : Int, ¬ isInt32 n →
      stoi (to_string_int n) = Except.error StdError.out_of_range) ∧
    (∀ s : String, stoi s = Except.error StdError.out_of_range →
      (self.setValue cheatsEnabled (ConVarValue.ofString s) runCallback).raised
        = some (Raised.conversion StdError.out_of_range) ∧
      (self.setValue cheatsEnabled (ConVarValue.ofString s) runCallback).convar = self ∧
      (self.setValue cheatsEnabled (ConVarValue.ofString s) runCallback).callbackArgs = []) := by
  refine ⟨stoi_to_string_int_out_of_range, ?_⟩
  intro s hs
  have he := encode_text_integral_range self.type s ht hs
  rw [setValue_of_encode_error cheatsEnabled self _ runCallback _ hp he]
  exact ⟨rfl, rfl, rfl⟩

/-- C23 on the example "99999999999", the rendering of an integer that does
not fit an `int`, written to the BOOLEAN variable that stores "0". -/
theorem setValue_out_of_range_text_throws_witness :
    (boolVar.type = ConVarType.BOOLEAN ∨ boolVar.type = ConVarType.INTEGER) ∧
    boolVar.writePermitted false ∧
    ¬ isInt32 99999999999 ∧ to_string_int 99999999999 = "99999999999" ∧
    stoi (to_string_int 99999999999) = Except.error StdError.out_of_range ∧
    (boolVar.setValue false (ConVarValue.ofString "99999999999") true).raised
      = some (Raised.conversion StdError.out_of_range) ∧
    (boolVar.setValue false (ConVarValue.ofString "99999999999") true).convar = boolVar ∧
    (boolVar.setValue false (ConVarValue.ofString "99999999999") true).callbackArgs = [] :=
  ⟨by decide, by decide, by decide, by decide,
    (setValue_out_of_range_text_throws false boolVar true (by decide) (by decide)).1
      99999999999 (by decide),
    (setValue_out_of_range_text_throws false boolVar true (by decide) (by decide)).2
      "99999999999" (by decide)⟩

/-- C24: on a BOOLEAN or INTEGER variable with the write permitted, `setValue`
of the decimal rendering of a 32-bit integer `n` followed by a text `t` that
does not start with a decimal digit stores the rendering of `n`: the parse
takes the numeric prefix and ignores `t`, so the length is not used. -/
theorem setValue_numeric_prefix (cheatsEnabled : Bool) (self : ConVar) (n : Int) (t : String)
    (runCallback : Bool)
    (ht : self.type = ConVarType.BOOLEAN ∨ self.type = ConVarType.INTEGER)
    (hp : self.writePermitted cheatsEnabled) (hn : isInt32 n)
    (hsuffix : startsWithDigit t.data = false) :
    stoi (to_string_int n ++ t) = Except.ok n ∧
    (self.setValue cheatsEnabled (ConVarValue.ofString (to_string_int n ++ t))
      runCallback).convar.value = to_string_int n := by
  have hs : stoi (to_string_int n ++ t) = Except.ok n := by
    rw [to_string_int_append]
    exact stoi_intToChars_append n hn t.data hsuffix
  have he := encode_text_integral_ok self.type _ n ht hs
  rw [setValue_value_of_encode cheatsEnabled self _ runCallback _ hp he]
  exact ⟨hs, rfl⟩

/-- C24 on the example of the claim: "42abc" stores "42", not the length
"5". -/
theorem setValue_numeric_prefix_witness :
    (intVar.type = ConVarType.BOOLEAN ∨ intVar.type = ConVarType.INTEGER) ∧
    intVar.writePermitted false ∧ isInt32 42 ∧ startsWithDigit "abc".data = false ∧
    to_string_int 42 ++ "abc" = "42abc" ∧ to_string_int 42 = "42" ∧
    stoi (to_string_int 42 ++ "abc") = Except.ok 42 ∧
    (intVar.setValue false (ConVarValue.ofString (to_string_int 42 ++ "abc")) true).convar.value
      = to_string_int 42 :=
  ⟨by decide, by decide, by decide, by decide, by decide, by decide,
    setValue_numeric_prefix false intVar 42 "abc" true (by decide) (by decide) (by decide)
      (by decide)⟩

/-- C26: on an INTEGER variable with the write permitted, `setValue(n)`
followed by `getValue<int>()` returns `n`, for every `int` `n`, negative
values and both ends of the range included. -/
theorem setValue_getValue_int_round_trip (cheatsEnabled : Bool) (self : ConVar) (n : Int)
    (runCallback : Bool) (ht : self.type = ConVarType.INTEGER)
    (hp : self.writePermitted cheatsEnabled) (hn : isInt32 n) :
    (self.setValue cheatsEnabled (ConVarValue.ofInt n) runCallback).convar.getValueInt
      = Except.ok n := by
  have he : ConVar.encode self.type (ConVarValue.ofInt n) = Except.ok (to_string_int n) := by
    rw [ht]
    rfl
  rw [setValue_value_of_encode cheatsEnabled self _ runCallback _ hp he]
  exact (getValueInt_integral { self with value := to_string_int n } (Or.inr ht)).trans
    (stoi_to_string_int n hn)

/-- C26 at the two ends of the range and at a negative value. -/
theorem setValue_getValue_int_round_trip_witness :
    intVar.type = ConVarType.INTEGER ∧ intVar.writePermitted false ∧
    isInt32 (-2147483648) ∧ isInt32 2147483647 ∧ isInt32 (-7) ∧
    (intVar.setValue false (ConVarValue.ofInt (-2147483648)) true).convar.getValueInt
      = Except.ok (-2147483648) ∧
    (intVar.setValue false (ConVarValue.ofInt 2147483647) true).convar.getValueInt
      = Except.ok 2147483647 ∧
    (intVar.setValue false (ConVarValue.ofInt (-7)) true).convar.getValueInt
      = Except.ok (-7) :=
  ⟨by decide, by decide, by decide, by decide, by decide,
    setValue_getValue_int_round_trip false intVar (-2147483648) true (by decide) (by decide)
      (by decide),
    setValue_getValue_int_round_trip false intVar 2147483647 true (by decide) (by decide)
      (by decide),
    setValue_getValue_int_round_trip false intVar (-7) true (by decide) (by decide)
      (by decide)⟩

theorem natDigits_length_le (fuel n k : Nat) (hk : 1 ≤ k) (h : n < 10 ^ k) :
    (natDigits fuel n []).length ≤ k := by
  induction fuel generalizing n k with
  | zero => simp [natDigits]
  | succ f ih =>
    unfold natDigits
    split
    · simpa using hk
    · rename_i h10
      rw [natDigits_append]
      have hk2 : 2 ≤ k := by
        rcases Nat.lt_or_ge k 2 with hlt | hge
        · have hk1 : k = 1 := by omega
          subst hk1
          omega
        · exact hge
      have hpow : 10 ^ k = 10 * 10 ^ (k - 1) := by
        have : k = (k - 1) + 1 := by omega
        rw [this, Nat.pow_succ, Nat.mul_comm]
        simp
      have hdiv : n / 10 < 10 ^ (k - 1) := by
        apply Nat.div_lt_of_lt_mul
        rw [← hpow]
        exact h
      have := ih (n / 10) (k - 1) (by omega) hdiv
      simp only [List.length_append, List.length_singleton]
      omega

theorem to_string_int_length_le (n : Int) (hn : isInt32 n) :
    (to_string_int n).length ≤ 11 := by
  have hab : n.natAbs < 10 ^ 10 := by
    unfold isInt32 INT_MIN INT_MAX at hn
    omega
  have hd : (natToChars n.natAbs).length ≤ 10 :=
    natDigits_length_le _ _ 10 (by decide) hab
  show (intToChars n).length ≤ 11
  unfold intToChars
  split
  · simp only [List.length_cons]
    omega
  · omega

/-- C25: on a STRING variable with the write permitted, `setValue(n)` of an
`int` followed by `getValue<int>()` returns the number of characters of the
decimal rendering of `n`, minus sign included (at most 11). -/
theorem setValue_int_getValue_int_on_string (cheatsEnabled : Bool) (self : ConVar) (n : Int)
    (runCallback : Bool) (ht : self.type = ConVarType.STRING)
    (hp : self.writePermitted cheatsEnabled) (hn : isInt32 n) :
    (self.setValue cheatsEnabled (ConVarValue.ofInt n) runCallback).convar.getValueInt
      = Except.ok ((to_string_int n).length : Int) := by
  have he : ConVar.encode self.type (ConVarValue.ofInt n) = Except.ok (to_string_int n) := by
    rw [ht]
    rfl
  rw [setValue_value_of_encode cheatsEnabled self _ runCallback _ hp he]
  have hl := to_string_int_length_le n hn
  have hw : wrapInt32 ((to_string_int n).length : Int) = ((to_string_int n).length : Int) := by
    unfold wrapInt32
    omega
  simp only [ConVar.getValueInt, ht, hw]

/-- C25 on the example of the claim and on a negative number: after
`setValue(123)` the answer is 3, after `setValue(-5)` it is 2. -/
theorem setValue_int_getValue_int_on_string_witness :
    stringVar.type = ConVarType.STRING ∧ stringVar.writePermitted false ∧
    isInt32 123 ∧ isInt32 (-5) ∧
    (to_string_int 123).length = 3 ∧ (to_string_int (-5)).length = 2 ∧
    (stringVar.setValue false (ConVarValue.ofInt 123) true).convar.getValueInt
      = Except.ok ((to_string_int 123).length : Int) ∧
    (stringVar.setValue false (ConVarValue.ofInt (-5)) true).convar.getValueInt
      = Except.ok ((to_string_int (-5)).length : Int) :=
  ⟨by decide, by decide, by decide, by decide, by decide, by decide,
    setValue_int_getValue_int_on_string false stringVar 123 true (by decide) (by decide)
      (by decide),
    setValue_int_getValue_int_on_string false stringVar (-5) true (by decide) (by decide)
      (by decide)⟩

end chira

/-! ## What `setValue` stores does not depend on what was stored -/

namespace chira

theorem writePermitted_setValue (cheatsEnabled c : Bool) (self : ConVar)
    (newValue : ConVarValue) (runCallback : Bool) (hp : self.writePermitted c) :
    (self.setValue cheatsEnabled newValue runCallback).convar.writePermitted c := by
  rw [setValue_convar_eq]
  exact hp

/-- C27: with the write permitted, what `setValue(x)` stores is decided by
the type and by `x` alone. Two variables of the same type, whatever they
held before, end with the same stored string, the encoding of `x` for the
type; or, on the inputs whose conversion throws, `setValue` stores nothing
in either. Hence a second `setValue(x)` leaves the stored string of the
first, for every type and every input. -/
theorem setValue_stored_string_from_type_and_input (c c1 : Bool) (self other : ConVar)
    (x : ConVarValue) (runCallback runCallback1 : Bool)
    (hty : self.type = other.type)
    (hp : self.writePermitted c) (hp1 : other.writePermitted c1) :
    ((ConVar.encode self.type x
          = Except.ok (self.setValue c x runCallback).convar.value ∧
        (self.setValue c x runCallback).convar.value
          = (other.setValue c1 x runCallback1).convar.value) ∨
      (∃ e : StdError,
        (self.setValue c x runCallback).raised = some (Raised.conversion e) ∧
        (self.setValue c x runCallback).convar = self ∧
        (other.setValue c1 x runCallback1).raised = some (Raised.conversion e) ∧
        (other.setValue c1 x runCallback1).convar = other)) ∧
    ((self.setValue c x runCallback).convar.setValue c x runCallback).convar.value
      = (self.setValue c x runCallback).convar.value := by
  cases he : ConVar.encode self.type x with
  | error e =>
    have he1 : ConVar.encode other.type x = Except.error e := by
      rw [← hty]
      exact he
    have h := setValue_of_encode_error c self x runCallback e hp he
    have h1 := setValue_of_encode_error c1 other x runCallback1 e hp1 he1
    refine ⟨Or.inr ⟨e, ?_, ?_, ?_, ?_⟩, ?_⟩
    · rw [h]
    · rw [h]
    · rw [h1]
    · rw [h1]
    · rw [h]
      show (self.setValue c x runCallback).convar.value = self.value
      rw [h]
  | ok v =>
    have he1 : ConVar.encode other.type x = Except.ok v := by
      rw [← hty]
      exact he
    have h := setValue_value_of_encode c self x runCallback v hp he
    have h1 := setValue_value_of_encode c1 other x runCallback1 v hp1 he1
    refine ⟨Or.inl ⟨?_, ?_⟩, ?_⟩
    · rw [h]
    · rw [h, h1]
    · rw [h]
      have he2 : ConVar.encode ({ self with value := v } : ConVar).type x = Except.ok v := he
      rw [setValue_value_of_encode c { self with value := v } x runCallback v hp he2]

/-- C27 on two INTEGER variables that hold "10" and "20": after
`setValue("abc")` both hold "3", and a second `setValue("abc")` leaves "3". -/
theorem setValue_stored_string_from_type_and_input_witness :
    intVar.type = otherIntVar.type ∧ intVar.value = "10" ∧ otherIntVar.value = "20" ∧
    intVar.writePermitted false ∧ otherIntVar.writePermitted false ∧
    (intVar.setValue false (ConVarValue.ofString "abc") true).convar.value = "3" ∧
    (otherIntVar.setValue false (ConVarValue.ofString "abc") true).convar.value = "3" ∧
    ((intVar.setValue false (ConVarValue.ofString "abc") true).convar.setValue false
        (ConVarValue.ofString "abc") true).convar.value
      = (intVar.setValue false (ConVarValue.ofString "abc") true).convar.value :=
  ⟨by decide, by decide, by decide, by decide, by decide, by decide, by decide,
    (setValue_stored_string_from_type_and_input false false intVar otherIntVar
      (ConVarValue.ofString "abc") true true (by decide) (by decide) (by decide)).2⟩

theorem isIntString_to_string_bool (b : Bool) : isIntString (to_string_bool b) :=
  ⟨if b then 1 else 0, by cases b <;> decide, rfl⟩

theorem isStoredIntegral_to_string_size (k : Nat) : isStoredIntegral (to_string_size k) := by
  rcases Nat.lt_or_ge 2147483647 k with h | h
  · exact Or.inr ⟨k, h, rfl⟩
  · refine Or.inl ⟨(k : Int), ?_, to_string_size_eq_int k⟩
    unfold isInt32 INT_MIN INT_MAX
    omega

/-- What lines 166-206 store in a BOOLEAN or INTEGER variable, for any input
a caller can pass, is the rendering of an `int` or of a large text length. -/
theorem encode_integral_stored (t : ConVarType) (x : ConVarValue) (v : String)
    (ht : t = ConVarType.BOOLEAN ∨ t = ConVarType.INTEGER) (hw : x.wellFormed)
    (he : ConVar.encode t x = Except.ok v) : isStoredIntegral v := by
  cases x with
  | ofString s =>
    cases hs : stoi s with
    | ok n =>
      rw [encode_text_integral_ok t s n ht hs] at he
      injection he with he
      subst he
      exact Or.inl ⟨n, stoi_isInt32 s n hs, rfl⟩
    | error e =>
      cases e with
      | invalid_argument =>
        rw [encode_text_integral_invalid t s ht hs] at he
        injection he with he
        subst he
        exact isStoredIntegral_to_string_size _
      | out_of_range =>
        rw [encode_text_integral_range t s ht hs] at he
        cases he
  | ofBool b =>
    rcases ht with h | h <;> subst h <;> simp only [ConVar.encode, Except.ok.injEq] at he <;>
      subst he
    · exact Or.inl (isIntString_to_string_bool b)
    · exact Or.inl ⟨if b then 1 else 0, by cases b <;> decide, rfl⟩
  | ofInt n =>
    rcases ht with h | h <;> subst h <;> simp only [ConVar.encode, Except.ok.injEq] at he <;>
      subst he
    · exact Or.inl (isIntString_to_string_bool _)
    · exact Or.inl ⟨n, hw, rfl⟩
  | ofDouble d =>
    rcases ht with h | h <;> subst h <;> simp only [ConVar.encode, Except.ok.injEq] at he <;>
      subst he
    · exact Or.inl (isIntString_to_string_bool _)
    · exact Or.inl ⟨doubleToInt d, isInt32_doubleToInt d, rfl⟩

theorem create_storedForm (name : String) (defaultValue : ConVarValue) (description : String)
    (flags : Nat) (onChanged : String → CallbackResult) (hw : defaultValue.wellFormed) :
    (ConVar.create name defaultValue description flags onChanged).storedForm := by
  intro ht
  cases defaultValue with
  | ofString s => rcases ht with h | h <;> cases h
  | ofDouble d => rcases ht with h | h <;> cases h
  | ofBool b => exact Or.inl (isIntString_to_string_bool b)
  | ofInt n => exact Or.inl ⟨n, hw, rfl⟩

theorem loadCached_storedForm (r : Registries) (convar : ConVar)
    (hcache : ∀ e ∈ r.cache, e.2.wellFormed) (h : convar.storedForm) :
    (ConVarRegistry.loadCached r convar).storedForm := by
  unfold ConVarRegistry.loadCached
  split
  · split
    · rename_i v hv
      split
      · rename_i s hs
        intro ht
        have hmem : ∃ e ∈ r.cache, e.2 = v := by
          unfold Registries.cacheGet at hv
          cases hf : r.cache.find? (fun e => e.1 == ("convars", convar.name)) with
          | none => rw [hf] at hv; cases hv
          | some e =>
            rw [hf] at hv
            injection hv with hv
            exact ⟨e, List.mem_of_find?_eq_some hf, hv⟩
        obtain ⟨e, he, hev⟩ := hmem
        have hwf : v.wellFormed := hev ▸ hcache e he
        exact encode_integral_stored convar.type v s ht hwf hs
      · exact h
    · exact h
  · exact h

theorem construct_storedForm (r : Registries) (p : Nat) (name : String)
    (defaultValue : ConVarValue) (description : String) (flags : Nat)
    (onChanged : String → CallbackResult) (hw : defaultValue.wellFormed)
    (hcache : ∀ e ∈ r.cache, e.2.wellFormed) :
    (ConVar.construct r p name defaultValue description flags onChanged).convar.storedForm := by
  have hc := create_storedForm name defaultValue description flags onChanged hw
  rcases construct_convar_cases r p name defaultValue description flags onChanged with h | h
  · rw [h]
    exact hc
  · obtain ⟨r2, hr2, h⟩ := h
    rw [h]
    exact loadCached_storedForm r2 _ (by rw [hr2]; exact hcache) hc

theorem setValue_storedForm (cheatsEnabled : Bool) (self : ConVar) (newValue : ConVarValue)
    (runCallback : Bool) (hw : newValue.wellFormed) (h : self.storedForm) :
    (self.setValue cheatsEnabled newValue runCallback).convar.storedForm := by
  intro ht
  rw [setValue_type] at ht
  rcases setValue_value_cases cheatsEnabled self newValue runCallback with hv | hv
  · rw [hv]
    exact h ht
  · exact encode_integral_stored self.type newValue _ ht hw hv

theorem afterCalls_storedForm (self : ConVar) (calls : List SetValueCall)
    (hc : ∀ c ∈ calls, c.newValue.wellFormed) (h : self.storedForm) :
    (self.afterCalls calls).storedForm := by
  induction calls generalizing self with
  | nil => exact h
  | cons c cs ih =>
    unfold ConVar.afterCalls
    apply ih
    · intro c1 h1
      exact hc c1 (List.mem_cons_of_mem c h1)
    · exact setValue_storedForm _ _ _ _ (hc c (List.mem_cons_self c cs)) h

/-- Writing back the stored text of a variable that is not of type DOUBLE
leaves the stored string as it is. -/
theorem setValue_own_text (c : Bool) (self : ConVar) (runCallback : Bool)
    (hty : self.type ≠ ConVarType.DOUBLE) (hs : self.storedForm)
    (hp : self.writePermitted c) :
    (self.setValue c (ConVarValue.ofString self.getValueString) runCallback).convar.value
      = self.value := by
  show (self.setValue c (ConVarValue.ofString self.value) runCallback).convar.value = self.value
  cases ht : self.type with
  | DOUBLE => exact absurd ht hty
  | STRING =>
    have he : ConVar.encode self.type (ConVarValue.ofString self.value)
        = Except.ok self.value := by
      rw [ht]
      rfl
    rw [setValue_value_of_encode c self _ runCallback _ hp he]
  | BOOLEAN =>
    rcases hs (Or.inl ht) with ⟨n, hn, hv⟩ | ⟨k, hk, hv⟩
    · have he := encode_text_integral_ok self.type self.value n (Or.inl ht)
        (by rw [hv]; exact stoi_to_string_int n hn)
      rw [setValue_value_of_encode c self _ runCallback _ hp he]
      exact hv.symm
    · have hr : stoi self.value = Except.error StdError.out_of_range := by
        rw [hv, to_string_size_eq_int]
        apply stoi_to_string_int_out_of_range
        unfold isInt32 INT_MIN INT_MAX
        omega
      have he := encode_text_integral_range self.type self.value (Or.inl ht) hr
      rw [setValue_of_encode_error c self _ runCallback _ hp he]
  | INTEGER =>
    rcases hs (Or.inr ht) with ⟨n, hn, hv⟩ | ⟨k, hk, hv⟩
    · have he := encode_text_integral_ok self.type self.value n (Or.inr ht)
        (by rw [hv]; exact stoi_to_string_int n hn)
      rw [setValue_value_of_encode c self _ runCallback _ hp he]
      exact hv.symm
    · have hr : stoi self.value = Except.error StdError.out_of_range := by
        rw [hv, to_string_size_eq_int]
        apply stoi_to_string_int_out_of_range
        unfold isInt32 INT_MIN INT_MAX
        omega
      have he := encode_text_integral_range self.type self.value (Or.inr ht) hr
      rw [setValue_of_encode_error c self _ runCallback _ hp he]

/-- C28: a BOOLEAN, INTEGER or STRING variable, in any state reached by
construction from a default (a cached value loaded at registration included)
and by `setValue` calls, keeps its stored string when its own text form is
written back with the write permitted:
`setValue(getValue<std::string>())` leaves `value` unchanged. -/
theorem setValue_own_text_is_noop (r : Registries) (p : Nat) (name description : String)
    (flags : Nat) (onChanged : String → CallbackResult) (defaultValue : ConVarValue)
    (calls : List SetValueCall) (c runCallback : Bool)
    (hw : defaultValue.wellFormed)
    (hcache : ∀ e ∈ r.cache, e.2.wellFormed)
    (hc : ∀ call ∈ calls, call.newValue.wellFormed)
    (hty : ((ConVar.construct r p name defaultValue description flags onChanged).convar.afterCalls
      calls).type ≠ ConVarType.DOUBLE)
    (hp : ((ConVar.construct r p name defaultValue description flags onChanged).convar.afterCalls
      calls).writePermitted c) :
    (((ConVar.construct r p name defaultValue description flags onChanged).convar.afterCalls
        calls).setValue c
      (ConVarValue.ofString
        ((ConVar.construct r p name defaultValue description flags
          onChanged).convar.afterCalls calls).getValueString) runCallback).convar.value
      = ((ConVar.construct r p name defaultValue description flags onChanged).convar.afterCalls
        calls).value :=
  setValue_own_text c _ runCallback hty
    (afterCalls_storedForm _ calls hc
      (construct_storedForm r p name defaultValue description flags onChanged hw hcache))
    hp

/-- C28 on a BOOLEAN variable built from the default `true`, after the texts
"42", `false` and "007" were written: it holds "7", and writing "7" back
leaves "7". -/
theorem setValue_own_text_is_noop_witness :
    (ConVarValue.ofBool true).wellFormed ∧
    (∀ e ∈ Registries.empty.cache, e.2.wellFormed) ∧
    (∀ call ∈ boolCalls, call.newValue.wellFormed) ∧
    ((ConVar.construct Registries.empty 3 "b" (ConVarValue.ofBool true) "" CON_FLAG_NONE
      noCallback).convar.afterCalls boolCalls).type ≠ ConVarType.DOUBLE ∧
    ((ConVar.construct Registries.empty 3 "b" (ConVarValue.ofBool true) "" CON_FLAG_NONE
      noCallback).convar.afterCalls boolCalls).writePermitted false ∧
    ((ConVar.construct Registries.empty 3 "b" (ConVarValue.ofBool true) "" CON_FLAG_NONE
      noCallback).convar.afterCalls boolCalls).value = "7" ∧
    (((ConVar.construct Registries.empty 3 "b" (ConVarValue.ofBool true) "" CON_FLAG_NONE
        noCallback).convar.afterCalls boolCalls).setValue false
      (ConVarValue.ofString
        ((ConVar.construct Registries.empty 3 "b" (ConVarValue.ofBool true) "" CON_FLAG_NONE
          noCallback).convar.afterCalls boolCalls).getValueString) true).convar.value
      = ((ConVar.construct Registries.empty 3 "b" (ConVarValue.ofBool true) "" CON_FLAG_NONE
        noCallback).convar.afterCalls boolCalls).value :=
  ⟨by decide, by decide, by decide, by decide, by decide, by decide,
    setValue_own_text_is_noop Registries.empty 3 "b" "" CON_FLAG_NONE noCallback
      (ConVarValue.ofBool true) boolCalls false true (by decide) (by decide) (by decide)
      (by decide) (by decide)⟩

end chira

/-! ## The cheats check and the settings cache -/

namespace chira

theorem areCheatsEnabled_of_absent (r : Registries)
    (h : ConVarRegistry.hasConVar r CHEATS_CONVAR = false) :
    ConVar.areCheatsEnabled r = Except.ok false := by
  have hnone : r.convars.find? (fun e => e.2.name == CHEATS_CONVAR) = none := by
    rw [List.find?_eq_none]
    exact List.any_eq_false.mp h
  unfold ConVar.areCheatsEnabled
  rw [hnone]

/-- C21: `areCheatsEnabled()` answers `getValue<bool>()` of the variable
registered under the designated name, which is `b` when that variable is a
BOOLEAN variable storing the rendering of `b`; it answers `false` when no
variable is registered under the name, and then `setValue` leaves every
variable that has the CHEAT flag unchanged, without calling its callback. -/
theorem areCheatsEnabled_reads_cheats_variable (r : Registries) :
    (∀ e : Nat × ConVar,
      r.convars.find? (fun e => e.2.name == CHEATS_CONVAR) = some e →
      ConVar.areCheatsEnabled r = e.2.getValueBool ∧
      (∀ b : Bool, e.2.type = ConVarType.BOOLEAN → e.2.value = to_string_bool b →
        ConVar.areCheatsEnabled r = Except.ok b)) ∧
    (ConVarRegistry.hasConVar r CHEATS_CONVAR = false →
      ConVar.areCheatsEnabled r = Except.ok false ∧
      ∀ (self : ConVar) (newValue : ConVarValue) (runCallback : Bool),
        self.hasFlag CON_FLAG_CHEAT = true →
        (self.setValueIn r newValue runCallback).convar = self ∧
        (self.setValueIn r newValue runCallback).callbackArgs = [] ∧
        (self.setValueIn r newValue runCallback).raised = none) := by
  constructor
  · intro e he
    have h1 : ConVar.areCheatsEnabled r = e.2.getValueBool := by
      unfold ConVar.areCheatsEnabled
      rw [he]
    refine ⟨h1, ?_⟩
    intro b ht hv
    rw [h1]
    unfold ConVar.getValueBool
    rw [ht, hv]
    cases b <;> decide
  · intro h
    have h0 := areCheatsEnabled_of_absent r h
    refine ⟨h0, ?_⟩
    intro self newValue runCallback hf
    unfold ConVar.setValueIn
    rw [if_pos hf, h0]
    show (self.setValue false newValue runCallback).convar = self ∧
      (self.setValue false newValue runCallback).callbackArgs = [] ∧
      (self.setValue false newValue runCallback).raised = none
    rw [setValue_rejected self newValue runCallback hf]
    exact ⟨rfl, rfl, rfl⟩

/-- C21 on two states: with the cheats variable registered and set to `true`
the check answers `true`; with nothing registered it answers `false` and
`setValue(99)` leaves the cheat-protected variable at its value "10". -/
theorem areCheatsEnabled_reads_cheats_variable_witness :
    ConVar.areCheatsEnabled cheatsOnRegistries = Except.ok true ∧
    ConVarRegistry.hasConVar Registries.empty CHEATS_CONVAR = false ∧
    ConVar.areCheatsEnabled Registries.empty = Except.ok false ∧
    cheatVar.hasFlag CON_FLAG_CHEAT = true ∧
    (cheatVar.setValueIn Registries.empty (ConVarValue.ofInt 99) true).convar = cheatVar ∧
    (cheatVar.setValueIn cheatsOnRegistries (ConVarValue.ofInt 99) true).convar.value = "99" :=
  ⟨by decide, by decide,
    ((areCheatsEnabled_reads_cheats_variable Registries.empty).2 (by decide)).1,
    by decide,
    (((areCheatsEnabled_reads_cheats_variable Registries.empty).2 (by decide)).2 cheatVar
      (ConVarValue.ofInt 99) true (by decide)).1,
    by decide⟩

theorem loadCached_of_cache_eq (r r2 : Registries) (convar : ConVar)
    (hc : r2.cache = r.cache) :
    ConVarRegistry.loadCached r2 convar = ConVarRegistry.loadCached r convar := by
  unfold ConVarRegistry.loadCached Registries.cacheGet
  rw [hc]

/-- When the name is free, the constructor registers the variable, and the
object it leaves is the initialised one after the load from the cache. -/
theorem construct_convar_of_unused (r : Registries) (p : Nat) (name : String)
    (defaultValue : ConVarValue) (description : String) (flags : Nat)
    (onChanged : String → CallbackResult)
    (hc : ConCommandRegistry.hasConCommand r name = false)
    (hv : ConVarRegistry.hasConVar r name = false) :
    (ConVar.construct r p name defaultValue description flags onChanged).convar
      = ConVarRegistry.loadCached r
          (ConVar.create name defaultValue description flags onChanged) := by
  have hn := create_name name defaultValue description flags onChanged
  have h1 : (ConCommandRegistry.registerConCommand r p
      (ConVar.create name defaultValue description flags onChanged).toConCommand).2
      = { r with concommands := r.concommands ++
          [(p, (ConVar.create name defaultValue description flags onChanged).toConCommand)] } := by
    unfold ConCommandRegistry.registerConCommand
    have e : (ConVar.create name defaultValue description flags
        onChanged).toConCommand.name = name := hn
    rw [e, hc, hv]
    rfl
  have h2 : ConCommandRegistry.hasConCommand
      (ConCommandRegistry.deregisterConCommand
        { r with concommands := r.concommands ++
          [(p, (ConVar.create name defaultValue description flags onChanged).toConCommand)] }
        p) name = false := by
    unfold ConCommandRegistry.hasConCommand ConCommandRegistry.deregisterConCommand
    rw [List.any_eq_false]
    intro e he
    obtain ⟨hmem, hne⟩ := List.mem_filter.mp he
    rcases List.mem_append.mp hmem with hold | hnew
    · exact List.any_eq_false.mp hc e hold
    · rw [List.mem_singleton] at hnew
      subst hnew
      simp at hne
  unfold ConVar.construct
  dsimp only
  rw [h1]
  unfold ConVarRegistry.registerConVar
  rw [hn, h2]
  have h3 : ConVarRegistry.hasConVar
      (ConCommandRegistry.deregisterConCommand
        { r with concommands := r.concommands ++
          [(p, (ConVar.create name defaultValue description flags onChanged).toConCommand)] }
        p) name = false := hv
  rw [h3]
  exact loadCached_of_cache_eq r _ _ rfl

/-- C22: for a variable constructed under a free name with the CACHE flag,
a value held by the settings cache under ("convars", name) overwrites the
default at registration: the stored string is the cached value encoded for
the variable's type. When the key is missing, the object is the one built
from the default. -/
theorem cached_value_overwrites_default (r : Registries) (p : Nat) (name : String)
    (defaultValue : ConVarValue) (description : String) (flags : Nat)
    (onChanged : String → CallbackResult)
    (hc : ConCommandRegistry.hasConCommand r name = false)
    (hv : ConVarRegistry.hasConVar r name = false) :
    (∀ (v : ConVarValue) (s : String),
      (ConVar.create name defaultValue description flags onChanged).hasFlag CON_FLAG_CACHE
        = true →
      r.cacheGet "convars" name = some v →
      ConVar.encode (ConVar.create name defaultValue description flags onChanged).type v
        = Except.ok s →
      (ConVar.construct r p name defaultValue description flags onChanged).convar.value = s ∧
      (ConVar.construct r p name defaultValue description flags onChanged).convar.getValueString
        = s) ∧
    (r.cacheGet "convars" name = none →
      (ConVar.construct r p name defaultValue description flags onChanged).convar
        = ConVar.create name defaultValue description flags onChanged) := by
  constructor
  · intro v s hf hget henc
    rw [construct_convar_of_unused r p name defaultValue description flags onChanged hc hv]
    unfold ConVarRegistry.loadCached
    rw [if_pos hf, create_name, hget]
    simp only [henc]
    simp [ConVar.getValueString]
  · intro hnone
    exact construct_value_of_nothingCached r p name defaultValue description flags onChanged
      (Or.inr hnone)

/-- C22 on the example of the spec: the cache holds 7 for "x", the variable
"x" is constructed with default 0 and the CACHE flag, and `getValue<int>()`
returns 7; the variable "y", which has no entry, keeps its default 0. -/
theorem cached_value_overwrites_default_witness :
    ConCommandRegistry.hasConCommand cachedSeven "x" = false ∧
    ConVarRegistry.hasConVar cachedSeven "x" = false ∧
    cachedSeven.cacheGet "convars" "x" = some (ConVarValue.ofInt 7) ∧
    cachedSeven.cacheGet "convars" "y" = none ∧
    (ConVar.construct cachedSeven 5 "x" (ConVarValue.ofInt 0) "" CON_FLAG_CACHE
      noCallback).convar.value = "7" ∧
    (ConVar.construct cachedSeven 5 "x" (ConVarValue.ofInt 0) "" CON_FLAG_CACHE
      noCallback).convar.getValueInt = Except.ok 7 ∧
    (ConVar.construct cachedSeven 5 "y" (ConVarValue.ofInt 0) "" CON_FLAG_CACHE
      noCallback).convar.getValueInt = Except.ok 0 := by
  have hx := (cached_value_overwrites_default cachedSeven 5 "x" (ConVarValue.ofInt 0) ""
    CON_FLAG_CACHE noCallback (by decide) (by decide)).1 (ConVarValue.ofInt 7) "7"
    (by decide) (by decide) (by decide)
  have hy := (cached_value_overwrites_default cachedSeven 5 "y" (ConVarValue.ofInt 0) ""
    CON_FLAG_CACHE noCallback (by decide) (by decide)).2 (by decide)
  refine ⟨by decide, by decide, by decide, by decide, hx.1, by decide, ?_⟩
  rw [hy]
  decide

end chira

/-! ## The stored string of an INTEGER variable, from construction on -/

namespace chira

theorem loadCached_integer_isIntString (r : Registries) (convar : ConVar)
    (ht : convar.type = ConVarType.INTEGER) (hv : isIntString convar.value)
    (hcache : ∀ e ∈ r.cache, e.2.wellFormed ∧ e.2.shortText) :
    isIntString (ConVarRegistry.loadCached r convar).value := by
  unfold ConVarRegistry.loadCached
  split
  · split
    · rename_i v hget
      split
      · rename_i s hs
        have hmem : ∃ e ∈ r.cache, e.2 = v := by
          unfold Registries.cacheGet at hget
          cases hf : r.cache.find? (fun e => e.1 == ("convars", convar.name)) with
          | none => rw [hf] at hget; cases hget
          | some e =>
            rw [hf] at hget
            injection hget with hget
            exact ⟨e, List.mem_of_find?_eq_some hf, hget⟩
        obtain ⟨e, he, hev⟩ := hmem
        have hwf := hcache e he
        rw [hev] at hwf
        rw [ht] at hs
        exact encode_integer_isIntString v s hwf.1 hwf.2 hs
      · exact hv
    · exact hv
  · exact hv

theorem construct_integer_isIntString (r : Registries) (p : Nat) (name description : String)
    (flags : Nat) (onChanged : String → CallbackResult) (n : Int) (hn : isInt32 n)
    (hcache : ∀ e ∈ r.cache, e.2.wellFormed ∧ e.2.shortText) :
    (ConVar.construct r p name (ConVarValue.ofInt n) description flags onChanged).convar.type
      = ConVarType.INTEGER ∧
    isIntString
      (ConVar.construct r p name (ConVarValue.ofInt n) description flags onChanged).convar.value := by
  refine ⟨construct_type r p name _ description flags onChanged, ?_⟩
  have hv : isIntString (ConVar.create name (ConVarValue.ofInt n) description flags
      onChanged).value := ⟨n, hn, rfl⟩
  rcases construct_convar_cases r p name (ConVarValue.ofInt n) description flags onChanged
    with h | h
  · rw [h]
    exact hv
  · obtain ⟨r2, hr2, h⟩ := h
    rw [h]
    exact loadCached_integer_isIntString r2 _ rfl hv (by rw [hr2]; exact hcache)

/-- C6, amended: an INTEGER variable, after its construction from an `int`
default (registration and the load from the settings cache included) and
after every finite sequence of `setValue` calls (permitted or rejected,
throwing or not), holds a string that parses as an integer, so that
`getValue<int>()` returns a value, provided the integers that arrive (as
inputs or from the cache) are `int`s and the texts that arrive have fewer
than `2^31` characters. -/
theorem integer_value_always_parses (r : Registries) (p : Nat) (name description : String)
    (flags : Nat) (onChanged : String → CallbackResult) (n : Int) (calls : List SetValueCall)
    (hn : isInt32 n)
    (hcache : ∀ e ∈ r.cache, e.2.wellFormed ∧ e.2.shortText)
    (hc : ∀ c ∈ calls, c.newValue.wellFormed ∧ c.newValue.shortText) :
    ∃ k : Int,
      stoi ((ConVar.construct r p name (ConVarValue.ofInt n) description flags
        onChanged).convar.afterCalls calls).value = Except.ok k ∧
      ((ConVar.construct r p name (ConVarValue.ofInt n) description flags
        onChanged).convar.afterCalls calls).getValueInt = Except.ok k := by
  obtain ⟨ht0, hv0⟩ :=
    construct_integer_isIntString r p name description flags onChanged n hn hcache
  obtain ⟨ht, k, hk, hv⟩ := afterCalls_integer_isIntString _ calls ht0 hv0 hc
  refine ⟨k, ?_, ?_⟩
  · rw [hv]
    exact stoi_to_string_int k hk
  · rw [getValueInt_integral _ (Or.inr ht), hv]
    exact stoi_to_string_int k hk

/-- C6, amended, on a variable "x" with the CHEAT and CACHE flags and the
default 10, constructed while the cache holds 7 for "x", then written by a
rejected call, by "abc", by "99999999999" (which throws) and by the double
1.5. -/
theorem integer_value_always_parses_witness :
    isInt32 10 ∧
    (∀ e ∈ cachedSeven.cache, e.2.wellFormed ∧ e.2.shortText) ∧
    (∀ c ∈ sampleCalls, c.newValue.wellFormed ∧ c.newValue.shortText) ∧
    (ConVar.construct cachedSeven 5 "x" (ConVarValue.ofInt 10) ""
      (CON_FLAG_CHEAT ||| CON_FLAG_CACHE) noCallback).convar.value = "7" ∧
    ∃ k : Int,
      stoi ((ConVar.construct cachedSeven 5 "x" (ConVarValue.ofInt 10) ""
        (CON_FLAG_CHEAT ||| CON_FLAG_CACHE) noCallback).convar.afterCalls
        sampleCalls).value = Except.ok k ∧
      ((ConVar.construct cachedSeven 5 "x" (ConVarValue.ofInt 10) ""
        (CON_FLAG_CHEAT ||| CON_FLAG_CACHE) noCallback).convar.afterCalls
        sampleCalls).getValueInt = Except.ok k :=
  ⟨by decide, by decide, by decide, by decide,
    integer_value_always_parses cachedSeven 5 "x" "" (CON_FLAG_CHEAT ||| CON_FLAG_CACHE)
      noCallback 10 sampleCalls (by decide) (by decide) (by decide)⟩

end chira
